import Mathlib

/-!
Verification of the host EDR agent's core pipeline
(`backend/agent/afent_updated.py`, `backend/agent/response.py`,
`backend/main.py`) against its natural-language specification.

The Python modules are shallowly embedded: dictionaries become structures
or association lists; wall-clock instants and float quantities become
values of an arbitrary linearly ordered ring/field `α` (so the theorems
hold for real-valued time while concrete witnesses instantiate `α := ℤ`
or `ℚ`); machine side effects (process killing, filesystem moves,
publishing) become explicit oracles that may fail; Python exceptions
become `Except` values whose `try/except` blocks are rendered with
`tryCatch`.  All definitions are executable.
-/

namespace RTM

/-! ### Python string helpers

`str.lower()` on the ASCII range (the agent only lowercases extensions,
process names, command lines and configured paths, which are ASCII in
practice), `str.startswith`, and the substring test `needle in hay`. -/

/-- ASCII `str.lower()` on a single character. -/
def asciiLowerChar (c : Char) : Char :=
  if 'A' ≤ c ∧ c ≤ 'Z' then Char.ofNat (c.toNat + 32) else c

/-- ASCII `str.lower()`. -/
def asciiLower (s : String) : String :=
  ⟨s.data.map asciiLowerChar⟩

/-- `hay.startswith(needle)`, on character lists (first argument is the
needle, second the haystack). -/
def startsWithL : List Char → List Char → Bool
  | [], _ => true
  | _ :: _, [] => false
  | a :: as, b :: bs => (a == b) && startsWithL as bs

/-- Python's substring test `needle in hay`. -/
def containsSub (hay needle : List Char) : Bool :=
  hay.tails.any (fun t => startsWithL needle t)

/-! ### `ntpath.splitext`

`os.path.splitext` on Windows: the extension is everything from the last
dot of the basename onwards, except that leading dots of the basename do
not start an extension (`".bashrc"` has none). -/

/-- Basename of a Windows path: the segment after the last `\` or `/`. -/
def basenameL (p : List Char) : List Char :=
  p.foldl (fun acc c => if c = '\\' ∨ c = '/' then [] else acc ++ [c]) []

/-- Everything after the last `.` of `l` (with the dot), or `[]` if `l`
has no dot. -/
def extFrom (l : List Char) : List Char :=
  match l.foldl (fun (st : Option (List Char)) c =>
      if c = '.' then some [] else st.map (fun a => a ++ [c])) none with
  | none => []
  | some rest => '.' :: rest

/-- The extension part of `ntpath.splitext`: last-dot suffix of the
basename, ignoring the basename's leading dots. -/
def splitextL (p : List Char) : List Char :=
  extFrom ((basenameL p).dropWhile (fun c => c == '.'))

/-- Extension of a path as the agent compares it:
`os.path.splitext(p)[1].lower()`. -/
def splitextLower (p : String) : List Char :=
  (splitextL p.data).map asciiLowerChar

/-! ### File Activity Tracker

`FileActivityTracker` from `afent_updated.py` (lines 114-163): per-pid
lists of rename and modification records.  Python's `defaultdict(list)`
becomes a total function returning `[]` for unseen pids; `time.time()`
instants live in an arbitrary linearly ordered ring `α`. -/

variable {α : Type} [LinearOrderedRing α]

/-- State of `FileActivityTracker`: `window` seconds, and the per-pid
`renames` (`(old, new, time)`) and `modifications` (`(path, time)`). -/
structure FileActivityTracker (α : Type) where
  window : α
  renames : Int → List (String × String × α)
  modifications : Int → List (String × α)

/-- `FileActivityTracker(window_seconds)` (the source default is 60). -/
def trackerInit (window : α) : FileActivityTracker α :=
  { window := window, renames := fun _ => [], modifications := fun _ => [] }

/-- `_cleanup(pid, now)`: drop entries of that pid with `now - t >= window`
from both lists. -/
def tracker_cleanup (s : FileActivityTracker α) (pid : Int) (now : α) :
    FileActivityTracker α :=
  { s with
    renames := fun q =>
      if q = pid then (s.renames pid).filter (fun e => now - e.2.2 < s.window)
      else s.renames q,
    modifications := fun q =>
      if q = pid then (s.modifications pid).filter (fun e => now - e.2 < s.window)
      else s.modifications q }

/-- `track_rename(pid, old_path, new_path)` at wall-clock `now`.
`if not pid: return` makes `None` and `0` no-ops. -/
def track_rename (s : FileActivityTracker α) (pid : Option Int)
    (old_path new_path : String) (now : α) : FileActivityTracker α :=
  match pid with
  | none => s
  | some p =>
    if p = 0 then s
    else
      tracker_cleanup
        { s with renames := fun q =>
            if q = p then s.renames p ++ [(old_path, new_path, now)]
            else s.renames q } p now

/-- `track_modification(pid, path)` at wall-clock `now`. -/
def track_modification (s : FileActivityTracker α) (pid : Option Int)
    (path : String) (now : α) : FileActivityTracker α :=
  match pid with
  | none => s
  | some p =>
    if p = 0 then s
    else
      tracker_cleanup
        { s with modifications := fun q =>
            if q = p then s.modifications p ++ [(path, now)]
            else s.modifications q } p now

/-- `get_rename_count(pid)`: length of the stored list; performs no
eviction and does not read the clock. -/
def get_rename_count (s : FileActivityTracker α) (pid : Int) : ℕ :=
  (s.renames pid).length

/-- `get_modification_count(pid)`: length of the stored list; performs no
eviction and does not read the clock. -/
def get_modification_count (s : FileActivityTracker α) (pid : Int) : ℕ :=
  (s.modifications pid).length

/-- `check_extension_changes(pid)`: count stored renames whose lowercased
extensions differ and are both non-empty. -/
def check_extension_changes (s : FileActivityTracker α) (pid : Int) : ℕ :=
  (s.renames pid).foldl
    (fun ext_changes e =>
      let old_ext := splitextLower e.1
      let new_ext := splitextLower e.2.1
      if old_ext ≠ new_ext ∧ old_ext ≠ [] ∧ new_ext ≠ [] then ext_changes + 1
      else ext_changes) 0

/-- Fold a batch of `track_modification` calls (pid fixed), one per
`(path, time)` entry. -/
def trackMods (s : FileActivityTracker α) (pid : Option Int)
    (entries : List (String × α)) : FileActivityTracker α :=
  entries.foldl (fun st e => track_modification st pid e.1 e.2) s

/-- Fold a batch of `track_rename` calls (pid fixed), one per
`(old, new, time)` entry. -/
def trackRenames (s : FileActivityTracker α) (pid : Option Int)
    (entries : List (String × String × α)) : FileActivityTracker α :=
  entries.foldl (fun st e => track_rename st pid e.1 e.2.1 e.2.2) s

/-- Spec-side predicate of claim C9: a rename counts exactly when both
extensions are non-empty and differ. -/
def specExtChange (old_path new_path : String) : Bool :=
  decide (splitextLower old_path ≠ splitextLower new_path ∧
    splitextLower old_path ≠ [] ∧ splitextLower new_path ≠ [])

/-! ### Events as seen by the scorer and dispatcher

`calculate_threat_score` (afent_updated.py lines 596-687) reads
`evt["type"]`, `evt["subtype"]`, `evt["severity"]`, `evt["signals"]` and a
fixed set of `evt["data"]` keys, each with a `.get` default.  The event is
modelled with exactly those fields (a missing `data` key and its default
value are indistinguishable to the scorer).  Float-valued entropies live
in the ordered ring `α`. -/

/-- `evt["signals"]`: accumulated indicator tags and the 0-100 score. -/
structure Signals where
  ioc : List String
  score : Int
deriving DecidableEq

/-- An Event as consumed by the scorer/dispatcher: `type`, `subtype`,
`severity`, the `data` keys the pipeline reads, and `signals`. -/
structure SEvent (α : Type) where
  type : String
  subtype : String
  severity : Int
  rate : Int
  entropy : α
  min_entropy : α
  ext : String
  name : String
  cmdline : String
  path : Option String
  pid : Option Int
  signals : Signals
deriving DecidableEq

/-- The configuration values the scorer and dispatcher read from
`CFG["agent"]`; each field holds the loaded value or the `.get` default
(e.g. `file_burst_threshold_per_sec` defaults to 50,
`entropy_threshold` to 7.3). -/
structure AgentCfg (α : Type) where
  file_burst_threshold_per_sec : Int
  entropy_threshold : α
  ext_watchlist : List String
  quarantine_enable : Bool
  quarantine_exts : List String
  quarantine_paths : List String

/-- Known-ransomware executable names (WannaCry indicators). -/
def knownRansomwareProcs : List String :=
  ["mssecsvc.exe", "tasksche.exe", "taskdl.exe", "taskse.exe"]

/-- Script-interpreter names checked by the scorer. -/
def scriptInterpreters : List String :=
  ["powershell.exe", "wscript.exe", "cscript.exe", "mshta.exe"]

/-- Obfuscation/encoding markers searched for in the command line. -/
def obfuscationMarkers : List String :=
  ["encodedcommand", "-enc", "frombase64", "invoke-expression"]

/-- File-based indicators (lines 602-625): burst rate, entropy, watched
extension. -/
def scoreFileBlock (cfg : AgentCfg α) (evt : SEvent α) (acc : Int × List String) :
    Int × List String :=
  if evt.type = "file" then
    let acc1 :=
      if evt.rate ≥ cfg.file_burst_threshold_per_sec then
        (acc.1 + 50, acc.2 ++ ["file_burst"])
      else acc
    let acc2 :=
      if evt.entropy ≥ cfg.entropy_threshold ∧ evt.min_entropy > 7 then
        (acc1.1 + 40, acc1.2 ++ ["high_entropy_all_samples"])
      else if evt.entropy ≥ cfg.entropy_threshold then
        (acc1.1 + 25, acc1.2 ++ ["high_entropy"])
      else acc1
    if (cfg.ext_watchlist.map asciiLower).contains evt.ext then
      (acc2.1 + 35, acc2.2 ++ ["suspicious_extension"])
    else acc2
  else acc

/-- Process-based indicators (lines 628-645): known ransomware name,
script interpreter, obfuscated command line. -/
def scoreProcessBlock (evt : SEvent α) (acc : Int × List String) :
    Int × List String :=
  if evt.type = "process" then
    let name := asciiLower evt.name
    let cmdline := asciiLower evt.cmdline
    let acc1 :=
      if knownRansomwareProcs.contains name then
        (acc.1 + 60, acc.2 ++ ["known_ransomware_process"])
      else acc
    if scriptInterpreters.contains name then
      let acc2 := (acc1.1 + 25, acc1.2 ++ ["script_interpreter"])
      if obfuscationMarkers.any (fun x => containsSub cmdline.data x.data) then
        (acc2.1 + 20, acc2.2 ++ ["obfuscated_script"])
      else acc2
    else acc1
  else acc

/-- System modification indicators (lines 648-650). -/
def scoreSystemBlock (evt : SEvent α) (acc : Int × List String) :
    Int × List String :=
  if evt.subtype = "vss_delete" ∨ evt.subtype = "service_install" then
    (acc.1 + 55, acc.2 ++ [evt.subtype])
  else acc

/-- Shadow-copy deletion indicator (lines 652-654). -/
def scoreShadowBlock (evt : SEvent α) (acc : Int × List String) :
    Int × List String :=
  if evt.subtype = "shadow_deletion_attempt" then
    (acc.1 + 60, acc.2 ++ ["shadow_deletion"])
  else acc

/-- Resource-abuse indicator (lines 657-659). -/
def scoreResourceBlock (evt : SEvent α) (acc : Int × List String) :
    Int × List String :=
  if evt.type = "resource" then (acc.1 + 15, acc.2 ++ ["resource_spike"])
  else acc

/-- Ransomware-specific detections (lines 662-669). -/
def scoreRansomwareBlock (evt : SEvent α) (acc : Int × List String) :
    Int × List String :=
  if evt.type = "ransomware" then
    let w : Int :=
      if evt.subtype = "mass_file_operation" then 65
      else if evt.subtype = "ransom_note_detected" then 70
      else 60
    (acc.1 + w, acc.2 ++ ["ransomware_" ++ evt.subtype])
  else acc

/-- Registry-persistence indicator (lines 672-674). -/
def scoreRegistryBlock (evt : SEvent α) (acc : Int × List String) :
    Int × List String :=
  if evt.subtype = "registry_persistence" then
    (acc.1 + 30, acc.2 ++ ["registry_persistence"])
  else acc

/-- `calculate_threat_score(evt)`: run all indicator blocks in source
order, extend `signals.ioc`, write the clamped score into
`signals.score`, and escalate `severity` from the (unclamped) score. -/
def calculate_threat_score (cfg : AgentCfg α) (evt : SEvent α) : SEvent α :=
  let acc :=
    scoreRegistryBlock evt (scoreRansomwareBlock evt (scoreResourceBlock evt
      (scoreShadowBlock evt (scoreSystemBlock evt (scoreProcessBlock evt
        (scoreFileBlock cfg evt ((0 : Int), ([] : List String))))))))
  let score := acc.1
  { evt with
    signals := { ioc := evt.signals.ioc ++ acc.2, score := min 100 score },
    severity :=
      if score ≥ 80 then max evt.severity 4
      else if score ≥ 60 then max evt.severity 3
      else if score ≥ 40 then max evt.severity 2
      else evt.severity }

/-! Spec-side indicator list for claim C2, written from the claim's own
enumeration: each matched indicator contributes its reference weight and
one tag, in evaluation order. -/

/-- Spec-side (claim C2): the matched indicators of the file block, as
`(tag, weight)` pairs in evaluation order. -/
def specFileIndicators (cfg : AgentCfg α) (evt : SEvent α) : List (String × Int) :=
  (if evt.type = "file" ∧ evt.rate ≥ cfg.file_burst_threshold_per_sec then
    [("file_burst", 50)] else []) ++
  (if evt.type = "file" ∧ evt.entropy ≥ cfg.entropy_threshold ∧ evt.min_entropy > 7 then
    [("high_entropy_all_samples", 40)]
   else if evt.type = "file" ∧ evt.entropy ≥ cfg.entropy_threshold then
    [("high_entropy", 25)] else []) ++
  (if evt.type = "file" ∧ (cfg.ext_watchlist.map asciiLower).contains evt.ext then
    [("suspicious_extension", 35)] else [])

/-- Spec-side (claim C2): the matched indicators of the process block. -/
def specProcessIndicators (evt : SEvent α) : List (String × Int) :=
  (if evt.type = "process" ∧ knownRansomwareProcs.contains (asciiLower evt.name) then
    [("known_ransomware_process", 60)] else []) ++
  (if evt.type = "process" ∧ scriptInterpreters.contains (asciiLower evt.name) then
    [("script_interpreter", 25)] ++
    (if obfuscationMarkers.any
        (fun x => containsSub (asciiLower evt.cmdline).data x.data) then
      [("obfuscated_script", 20)] else [])
   else [])

/-- Spec-side (claim C2): the remaining matched indicators (subtype,
resource, ransomware, registry). -/
def specTailIndicators (evt : SEvent α) : List (String × Int) :=
  (if evt.subtype = "vss_delete" ∨ evt.subtype = "service_install" then
    [(evt.subtype, 55)] else []) ++
  (if evt.subtype = "shadow_deletion_attempt" then
    [("shadow_deletion", 60)] else []) ++
  (if evt.type = "resource" then [("resource_spike", 15)] else []) ++
  (if evt.type = "ransomware" then
    [("ransomware_" ++ evt.subtype,
      if evt.subtype = "mass_file_operation" then 65
      else if evt.subtype = "ransom_note_detected" then 70
      else 60)] else []) ++
  (if evt.subtype = "registry_persistence" then
    [("registry_persistence", 30)] else [])

/-- Spec-side (claim C2): all matched indicators in evaluation order. -/
def specIndicators (cfg : AgentCfg α) (evt : SEvent α) : List (String × Int) :=
  specFileIndicators cfg evt ++ specProcessIndicators evt ++ specTailIndicators evt

/-- Sum of the weights of an indicator list. -/
def iWeights (l : List (String × Int)) : Int := (l.map Prod.snd).sum

/-- The tags of an indicator list, in order. -/
def iTags (l : List (String × Int)) : List String := l.map Prod.fst

/-! ### Python truthiness helpers used by the response module -/

/-- Python truthiness of an optional integer (`None` and `0` are falsy). -/
def truthyInt : Option Int → Bool
  | none => false
  | some n => n != 0

/-- Python truthiness of an optional string (`None` and `""` are falsy). -/
def truthyStr : Option String → Bool
  | none => false
  | some s => s != ""

/-- Python `a or b` on optional integers. -/
def pyOrInt (a b : Option Int) : Option Int := if truthyInt a then a else b

/-- Python `a or b` on optional strings. -/
def pyOrStr (a b : Option String) : Option String := if truthyStr a then a else b

/-! ### Playbooks (`response.py`)

A playbook's `triggers` dictionary and its `actions` list.  A trigger key
absent from the YAML or set to `null` is `none`; note the source tests
`if pb_type and ...`, so a present-but-empty string behaves like an
absent key. -/

/-- The recognised fields of a playbook's `triggers` dictionary. -/
structure Triggers where
  min_severity : Option Int := none
  type : Option String := none
  subtype : Option String := none
deriving DecidableEq

/-- One entry of a playbook's `actions` list (`{type: ..., params}`);
`other` stands for an unrecognised `type` string, which the `elif` chain
ignores. -/
inductive PAction
  | kill_process (target_pid : Option Int)
  | isolate_network
  | quarantine_file (path : Option String)
  | notify
  | other (t : String)
deriving DecidableEq

/-- A declarative playbook record. -/
structure Playbook where
  name : String := ""
  triggers : Triggers := {}
  actions : List PAction := []
deriving DecidableEq

/-- One playbook's trigger test from `match_playbooks`
(response.py lines 96-114): `continue` on a failed check, keep otherwise.
`int(min_sev)` always succeeds on the typed model. -/
def pb_matches (evt : SEvent α) (pb : Playbook) : Bool :=
  (match pb.triggers.min_severity with
   | none => true
   | some v => !(evt.severity < v)) &&
  (match pb.triggers.type with
   | none => true
   | some t => (t == "") || (evt.type == t)) &&
  (match pb.triggers.subtype with
   | none => true
   | some t => (t == "") || (evt.subtype == t))

/-- `match_playbooks(playbooks, evt)`: the triggered playbooks in input
order. -/
def match_playbooks (pbs : List Playbook) (evt : SEvent α) : List Playbook :=
  pbs.filter (pb_matches evt)

/-- Spec-side (claim C8, as frozen): a playbook matches when every
*present* trigger field is satisfied, `type`/`subtype` by exact string
equality. -/
def claimPBMatch (evt : SEvent α) (pb : Playbook) : Bool :=
  (match pb.triggers.min_severity with
   | none => true
   | some v => decide (evt.severity ≥ v)) &&
  (match pb.triggers.type with
   | none => true
   | some t => evt.type == t) &&
  (match pb.triggers.subtype with
   | none => true
   | some t => evt.subtype == t)

/-! ### Dispatcher (`afent_updated.py` lines 707-791)

Python exceptions become an `Except PyExc` effect; every side-effecting
call the loop body makes is an oracle field free to return success or any
exception, and each `try/except` of the source is a `tryCatch`. -/

/-- An exception raised by a side effect.  `stopIteration` is the
sentinel raised by the quarantine-skip check; everything else is
`error`.  (`except Exception` catches both, `except StopIteration` only
the former.) -/
inductive PyExc
  | stopIteration
  | error
deriving DecidableEq

/-- Outcomes of the side effects the loop body performs; each may fail
with an exception.  `gethostbyname` is the outcome of
`socket.gethostbyname(socket.gethostname())` inside `ev_base` (line 54),
which raises `socket.gaierror` on a resolver failure. -/
structure DOracle where
  killResult : Int → Except PyExc Unit
  isolateResult : Except PyExc Unit
  quarantineResult : String → Except PyExc Unit
  procExe : Int → Except PyExc String
  notifyResult : Except PyExc Unit
  publishResult : Except PyExc Unit
  gethostbyname : Except PyExc String

/-- `try: x except Exception: pass` around an expression whose value is
discarded on failure. -/
def pyTry {β : Type} (x : Except PyExc β) (fallback : β) : β :=
  match x with
  | .ok b => b
  | .error _ => fallback

/-- `response.QUARANTINE_DIR`. -/
def QUARANTINE_DIR : String :=
  "C:\\Users\\sakindu\\Downloads\\testing\\RansomwareQuarantine"

/-- Execute one playbook action (`execute_actions`, response.py lines
144-171).  Every helper (`kill_process`, `isolate_network`,
`quarantine_file`, the notify callback) swallows its own exceptions, so
each oracle call sits under a `pyTry`. -/
def executeAction (orc : DOracle) (evt : SEvent α) (a : PAction) : Unit :=
  match a with
  | .kill_process tp =>
    match pyOrInt tp evt.pid with
    | some p => if p ≠ 0 then pyTry (orc.killResult p) () else ()
    | none => ()
  | .isolate_network => pyTry orc.isolateResult ()
  | .quarantine_file ap =>
    let fpath0 := pyOrStr ap evt.path
    let fpath1 :=
      if truthyStr fpath0 then fpath0
      else
        match evt.pid with
        | some p => if p ≠ 0 then pyTry ((orc.procExe p).map some) none else none
        | none => none
    match fpath1 with
    | some s => if s ≠ "" then pyTry (orc.quarantineResult s) () else ()
    | none => ()
  | .notify => pyTry orc.notifyResult ()
  | .other _ => ()

/-- `execute_actions(evt, playbooks, notify_callback)`: every action of
every triggered playbook, in declaration order. -/
def executeActions (orc : DOracle) (evt : SEvent α) (pbs : List Playbook) : Unit :=
  pbs.foldl (fun _ pb => pb.actions.foldl (fun _ a => executeAction orc evt a) ()) ()

/-- Legacy WannaCry indicators (lines 715-723): queue a synthetic
`ransomware/wannacry` Event at severity 4 on a fixed extension or
process-name signature. -/
def legacyExts : List String := [".wnry", ".wncry", ".wcry"]

/-- The synthetic `ransomware/wannacry` Event built by `ev_base` (its
`data` carries only the indicator details, which the scorer reads with
defaults). -/
def wannacryEvent : SEvent α :=
  { type := "ransomware", subtype := "wannacry", severity := 4,
    rate := 0, entropy := 0, min_entropy := 0, ext := "", name := "",
    cmdline := "", path := none, pid := none,
    signals := { ioc := [], score := 0 } }

/-- The events the legacy check queues (empty, or the single wannacry
event).  On an indicator match the synthetic event is built by
`ev_base(...)` (line 722), whose host-IP lookup
(`socket.gethostbyname`, line 54) may raise; the only handler enclosing
this call is `except queue.Empty` (line 790), so a lookup failure
propagates out of the loop body. -/
def legacyWannacry (orc : DOracle) (evt : SEvent α) :
    Except PyExc (List (SEvent α)) :=
  if (evt.type = "file" ∧ legacyExts.contains evt.ext) ∨
      (evt.type = "process" ∧ knownRansomwareProcs.contains evt.name) then
    (orc.gethostbyname).map (fun _ => [wannacryEvent])
  else pure []

/-- Quarantine-on-create block (lines 726-760).  The skip-if-inside-
quarantine check raises `StopIteration` inside its *own*
`except Exception: pass` (lines 740-745), which swallows it
(`StopIteration` is an `Exception` subclass), so the skip never takes
effect; the `severity` bump is applied before the only failing call, so
the outer `except StopIteration`/`except Exception` handlers observe the
mutated event. -/
def quarOnCreateBlock (cfg : AgentCfg α) (orc : DOracle) (evt : SEvent α) :
    Except PyExc (SEvent α) :=
  tryCatch
    (do
      if cfg.quarantine_enable ∧ evt.type = "file" ∧
          (evt.subtype = "create" ∨ evt.subtype = "rename" ∨ evt.subtype = "write") then
        let path := (evt.path).getD ""
        let ext := asciiLower evt.ext
        let exts := cfg.quarantine_exts.map asciiLower
        let bases := cfg.quarantine_paths.map asciiLower
        if path ≠ "" then
          let plower := asciiLower path
          let _ ← tryCatch
            (if startsWithL (asciiLower QUARANTINE_DIR).data plower.data then
              throw PyExc.stopIteration
            else pure ())
            (fun _ => pure ())
          let ext_ok := exts.isEmpty || exts.contains ext
          let path_ok := bases.isEmpty || bases.any (fun b => startsWithL b.data plower.data)
          if ext_ok && path_ok then
            let evt2 := { evt with severity := max evt.severity 3 }
            tryCatch ((orc.quarantineResult path).map (fun _ => evt2))
              (fun _ => pure evt2)
          else pure evt
        else pure evt
      else pure evt)
    (fun _ => pure evt)

/-- Built-in quarantine for high-severity watched extensions
(lines 763-773). -/
def builtinQuarantineBlock (cfg : AgentCfg α) (orc : DOracle) (evt : SEvent α) :
    Except PyExc (SEvent α) :=
  tryCatch
    (do
      if evt.type = "file" ∧ evt.severity ≥ 3 then
        let ext := asciiLower evt.ext
        let watch_exts := cfg.ext_watchlist.map asciiLower
        match evt.path with
        | some p =>
          if p ≠ "" ∧ watch_exts.contains ext then
            (orc.quarantineResult p).map (fun _ => evt)
          else pure evt
        | none => pure evt
      else pure evt)
    (fun _ => pure evt)

/-- SOAR playbook block (lines 777-782). -/
def playbookBlock (pbs : List Playbook) (orc : DOracle) (evt : SEvent α) :
    Except PyExc Unit :=
  tryCatch
    (do
      let triggered := match_playbooks pbs evt
      if triggered.isEmpty then pure ()
      else pure (executeActions orc evt triggered))
    (fun _ => pure ())

/-- Publish block (lines 785-788); signing is modelled separately (C1). -/
def publishBlock (orc : DOracle) : Except PyExc Unit :=
  tryCatch orc.publishResult (fun _ => pure ())

/-- One full iteration of the dispatcher loop body on a dequeued Event
(lines 710-788): score, legacy signature check, quarantine rules,
playbooks, publish.  Returns the processed event and the synthetic events
queued along the way.  The quarantine/playbook/publish blocks each sit
under their own `except`, but the legacy path's `ev_base` call does not:
a host-IP lookup failure there is an uncaught exception
(`Except.error`). -/
def dispatchBody (cfg : AgentCfg α) (pbs : List Playbook) (orc : DOracle)
    (evt0 : SEvent α) : Except PyExc (SEvent α × List (SEvent α)) := do
  let evt1 := calculate_threat_score cfg evt0
  let emitted ← legacyWannacry orc evt1
  let evt2 ← quarOnCreateBlock cfg orc evt1
  let evt3 ← builtinQuarantineBlock cfg orc evt2
  let _ ← playbookBlock pbs orc evt3
  let _ ← publishBlock orc
  pure (evt3, emitted)

/-! ### Entropy analyzer (`advanced_entropy_check`, lines 193-230)

The per-sample Shannon-entropy float computation (byte histogram and
`log2`) is abstracted as a parameter `H : List ℕ → F` into a linearly
ordered field: its value is irrational in general and float arithmetic is
not shallowly embeddable, while every claim about this function concerns
the sampling positions, the threshold logic and the error defaults, which
are proved for *every* `H`.  A file is `none` when unreadable (any I/O
error, including `os.path.getsize` failing); otherwise its byte string. -/

section Entropy

variable {F : Type} [LinearOrderedField F]

/-- Result dictionary of `advanced_entropy_check`; `min_entropy` is
absent (`none`) on the default paths.  The source rounds the reported
`avg_entropy`/`samples`/`min_entropy` to two decimals for display; the
rounding is omitted here (the suspicion test uses the unrounded
values). -/
structure EntropyResult (F : Type) where
  is_suspicious : Bool
  avg_entropy : F
  samples : List F
  min_entropy : Option F
deriving DecidableEq

/-- Python `min` of a non-empty list (0 for the empty list, which the
source never queries). -/
def pyMin (l : List F) : F :=
  match l with
  | [] => 0
  | x :: xs => xs.foldl min x

/-- `advanced_entropy_check(path)`: sample at the beginning, middle and
last 64 KiB, compute per-sample entropy, and flag when the mean exceeds
7.3 *and* the minimum exceeds 7.0.  `max(0, file_size - 65536)` is ℕ
truncated subtraction. -/
def advanced_entropy_check (H : List ℕ → F) (file : Option (List ℕ)) :
    EntropyResult F :=
  match file with
  | none => { is_suspicious := false, avg_entropy := 0, samples := [], min_entropy := none }
  | some bytes =>
    let file_size := bytes.length
    if file_size = 0 then
      { is_suspicious := false, avg_entropy := 0, samples := [], min_entropy := none }
    else
      let sample_positions := [0, file_size / 2, file_size - 65536]
      let entropies := sample_positions.filterMap (fun pos =>
        if pos ≥ file_size then none
        else
          let data := (bytes.drop pos).take (min 65536 (file_size - pos))
          if data.isEmpty then none else some (H data))
      if entropies.isEmpty then
        { is_suspicious := false, avg_entropy := 0, samples := [], min_entropy := none }
      else
        let avg_ent := entropies.sum / (entropies.length : F)
        { is_suspicious := decide (avg_ent > 73 / 10 ∧ pyMin entropies > 7),
          avg_entropy := avg_ent,
          samples := entropies,
          min_entropy := some (pyMin entropies) }

/-- Spec-side (claim C6): the up-to-three samples named by the claim —
beginning, middle, and last 64 KiB of the file. -/
def specSamples (bytes : List ℕ) : List (List ℕ) :=
  [bytes.take 65536,
   (bytes.drop (bytes.length / 2)).take 65536,
   (bytes.drop (bytes.length - 65536)).take 65536]

end Entropy

/-! ### Quarantine manager (`quarantine_file`, response.py lines 219-299)

The filesystem is a map from path to optional contents plus a read-only
flag and the written manifests; SHA-256 is an abstract hash function (its
value is never computed by any claim, only propagated); each OS call that
the source wraps in `try/except` is an oracle flag telling whether it
succeeds. -/

/-- `manifest.json` contents (`QuarantineRecord`). -/
structure Manifest where
  original_path : String
  quarantined_path : String
  size_bytes : Option ℕ
  sha256 : Option String
  quarantined_at : String
deriving DecidableEq

/-- Abstract filesystem state. -/
structure FS where
  files : String → Option (List ℕ)
  readOnly : String → Bool
  manifests : String → Option Manifest

/-- Success/failure of each fallible OS step of `quarantine_file`. -/
structure QOrc where
  hashOk : Bool
  renameOk : Bool
  copyOk : Bool
  removeOk : Bool
  chmodOk : Bool
  writeOk : Bool

/-- Update one path's contents. -/
def setFile (fs : FS) (p : String) (c : Option (List ℕ)) : FS :=
  { fs with files := fun q => if q = p then c else fs.files q }

/-- `os.rename(src, dst)` semantics on the abstract filesystem. -/
def fsRename (fs : FS) (src dst : String) (contents : List ℕ) : FS :=
  { fs with files := fun q =>
      if q = dst then some contents
      else if q = src then none
      else fs.files q }

/-- `Path(p).name` (Windows). -/
def basenameS (p : String) : String := ⟨basenameL p.data⟩

/-- `s[:n]`. -/
def strTake (n : ℕ) (s : String) : String := ⟨s.data.take n⟩

/-- The hash step: `digest = sha256(...) or None if reading failed`. -/
def quarDigest (hashFn : List ℕ → String) (orc : QOrc) (contents : List ℕ) :
    Option String :=
  if orc.hashOk then some (hashFn contents) else none

/-- Per-incident directory `QUARANTINE_DIR / f"{ts}_{(digest or 'nohash')[:8]}"`. -/
def quarCaseDir (ts : String) (digest : Option String) : String :=
  QUARANTINE_DIR ++ "\\" ++ ts ++ "_" ++ strTake 8 (digest.getD "nohash")

/-- Destination `case_dir / (src.name + ".quarantined")`. -/
def quarDst (ts : String) (digest : Option String) (path : String) : String :=
  quarCaseDir ts digest ++ "\\" ++ (basenameS path ++ ".quarantined")

/-- `quarantine_file(path)` at timestamp `ts`: no-op when the path does
not exist; hash in place; rename, falling back to copy-then-delete, and
abort quietly if both fail; best-effort read-only flag (the `icacls` ACL
calls touch no modelled state); best-effort manifest. -/
def quarantine_file (hashFn : List ℕ → String) (orc : QOrc) (ts : String)
    (fs : FS) (path : String) : FS :=
  match fs.files path with
  | none => fs
  | some contents =>
    let digest := quarDigest hashFn orc contents
    let dst := quarDst ts digest path
    let moved : Option FS :=
      if orc.renameOk then some (fsRename fs path dst contents)
      else if orc.copyOk then
        let fs1 := setFile fs dst (some contents)
        if orc.removeOk then some (setFile fs1 path none) else some fs1
      else none
    match moved with
    | none => fs
    | some fs2 =>
      let fs3 :=
        if orc.chmodOk then
          { fs2 with readOnly := fun q => if q = dst then true else fs2.readOnly q }
        else fs2
      if orc.writeOk then
        let mpath := quarCaseDir ts digest ++ "\\manifest.json"
        let m : Manifest :=
          { original_path := path, quarantined_path := dst,
            size_bytes := (fs3.files dst).map List.length,
            sha256 := digest, quarantined_at := ts }
        { fs3 with manifests := fun q => if q = mpath then some m else fs3.manifests q }
      else fs3

/-! ### Canonical JSON signing (C1)

`sign(d)` (afent_updated.py lines 44-47) serializes the event minus its
`hmac` key with `json.dumps(body, separators=(',',':'), sort_keys=True)`
and MACs the bytes; `verify_event` (main.py lines 91-97) recomputes the
same serialization and compares.  The serializer below reproduces
`json.dumps` with its default `ensure_ascii=True` escaping, writing the
fixed `ev_base` keys in sorted-key order.  The keyed
`HMAC-SHA256(key, msg).hexdigest()` is an abstract function
`hmacFn : List Char → List Char`; collision-freeness is a cryptographic
assumption, taken as an injectivity hypothesis where needed.

`data` is a dictionary of string keys to string/int values; a Python dict
under `sort_keys=True` is represented by its entry list in sorted key
order, so the serializer emits entries as given. -/

/-- A scalar JSON value of the event's `data` mapping. -/
inductive JVal
  | s (v : List Char)
  | i (v : Int)
deriving DecidableEq

/-- Decimal digits of `n`, most significant first (`str(n)` for `n ≥ 0`). -/
def serNat (n : ℕ) : List Char :=
  if h : n < 10 then [Char.ofNat (48 + n)]
  else serNat (n / 10) ++ [Char.ofNat (48 + n % 10)]
decreasing_by exact Nat.div_lt_self (by omega) (by omega)

/-- `str(i)` for a Python int. -/
def serInt (i : Int) : List Char :=
  if i < 0 then '-' :: serNat i.natAbs else serNat i.natAbs

/-- Lowercase hex digit. -/
def hexDigit (n : ℕ) : Char :=
  Char.ofNat (if n < 10 then 48 + n else 87 + n)

/-- Four lowercase hex digits of `n < 0x10000`. -/
def hex4 (n : ℕ) : List Char :=
  [hexDigit (n / 4096 % 16), hexDigit (n / 256 % 16), hexDigit (n / 16 % 16),
   hexDigit (n % 16)]

/-- `json.dumps` (`ensure_ascii=True`) escaping of one character: the
two-character escapes, printable ASCII verbatim, `\uXXXX` for the rest,
as a surrogate pair beyond the BMP. -/
def escChar (c : Char) : List Char :=
  if c = '"' then ['\\', '"']
  else if c = '\\' then ['\\', '\\']
  else if c = '\x08' then ['\\', 'b']
  else if c = '\x0c' then ['\\', 'f']
  else if c = '\n' then ['\\', 'n']
  else if c = '\r' then ['\\', 'r']
  else if c = '\t' then ['\\', 't']
  else if 0x20 ≤ c.toNat ∧ c.toNat ≤ 0x7e then [c]
  else if c.toNat < 0x10000 then '\\' :: 'u' :: hex4 c.toNat
  else
    let n := c.toNat - 0x10000
    '\\' :: 'u' :: hex4 (0xd800 + n / 0x400) ++ '\\' :: 'u' :: hex4 (0xdc00 + n % 0x400)

/-- Escape a whole string body. -/
def escStr (s : List Char) : List Char := s.flatMap escChar

/-- A JSON string literal: quote, escaped body, quote. -/
def serStr (s : List Char) : List Char := '"' :: escStr s ++ ['"']

/-- Serialize a `data` value. -/
def serJVal : JVal → List Char
  | .s v => serStr v
  | .i v => serInt v

/-- One `"key":value` object entry. -/
def serEntry (e : List Char × JVal) : List Char :=
  serStr e.1 ++ ':' :: serJVal e.2

/-- Comma-joined object entries. -/
def serItems : List (List Char × JVal) → List Char
  | [] => []
  | [e] => serEntry e
  | e :: es => serEntry e ++ ',' :: serItems es

/-- A JSON object from its (sorted) entry list. -/
def serObj (l : List (List Char × JVal)) : List Char :=
  '\x7b' :: serItems l ++ ['\x7d']

/-- Comma-joined string-array items. -/
def serStrItems : List (List Char) → List Char
  | [] => []
  | [s] => serStr s
  | s :: ss => serStr s ++ ',' :: serStrItems ss

/-- A JSON array of strings (the `signals.ioc` list). -/
def serStrList (l : List (List Char)) : List Char :=
  '[' :: serStrItems l ++ [']']

/-- An Event minus its `hmac` field, with exactly the fields `ev_base`
creates: `schema_version`, `source`, `host{id,name,ip}`, `time`, `type`,
`subtype`, `severity`, `data`, `signals{ioc,score}`. -/
structure EventBody where
  schema_version : List Char
  source : List Char
  host_id : List Char
  host_name : List Char
  host_ip : List Char
  time : List Char
  type : List Char
  subtype : List Char
  severity : Int
  data : List (List Char × JVal)
  ioc : List (List Char)
  score : Int
deriving DecidableEq

/-- `json.dumps(body, separators=(',',':'), sort_keys=True)` for an
Event body: keys in sorted order `data, host(id,ip,name),
schema_version, severity, signals(ioc,score), source, subtype, time,
type`. -/
def canonBody (b : EventBody) : List Char :=
  ("\x7b\"data\":").data ++ serObj b.data ++
  (",\"host\":\x7b\"id\":").data ++ serStr b.host_id ++
  (",\"ip\":").data ++ serStr b.host_ip ++
  (",\"name\":").data ++ serStr b.host_name ++
  ("\x7d,\"schema_version\":").data ++ serStr b.schema_version ++
  (",\"severity\":").data ++ serInt b.severity ++
  (",\"signals\":\x7b\"ioc\":").data ++ serStrList b.ioc ++
  (",\"score\":").data ++ serInt b.score ++
  ("\x7d,\"source\":").data ++ serStr b.source ++
  (",\"subtype\":").data ++ serStr b.subtype ++
  (",\"time\":").data ++ serStr b.time ++
  (",\"type\":").data ++ serStr b.type ++
  ("\x7d").data

/-- A full Event on the wire: body plus the `hmac` field. -/
structure WireEvent where
  body : EventBody
  hmac : List Char
deriving DecidableEq

/-- `sign(d)`: copy, pop `hmac`, canonicalize, MAC. -/
def signEvt (hmacFn : List Char → List Char) (e : WireEvent) : List Char :=
  hmacFn (canonBody e.body)

/-- `verify_event(event)` of the collector: recompute the MAC over the
body (with `hmac` popped) and compare with the stored signature. -/
def verify_event (hmacFn : List Char → List Char) (e : WireEvent) : Bool :=
  e.hmac == signEvt hmacFn e

/-! Proof-side observers used to show the canonical serialization is
injective: they invert one serialized token from the front of a
character list. -/

/-- Value of a lowercase hex digit. -/
def hexVal (c : Char) : Option ℕ :=
  if 48 ≤ c.toNat ∧ c.toNat ≤ 57 then some (c.toNat - 48)
  else if 97 ≤ c.toNat ∧ c.toNat ≤ 102 then some (c.toNat - 87)
  else none

/-- Value of four hex digits. -/
def hexVal4 (a b c d : Char) : Option ℕ :=
  match hexVal a, hexVal b, hexVal c, hexVal d with
  | some x, some y, some z, some w => some (x * 4096 + y * 256 + z * 16 + w)
  | _, _, _, _ => none

/-- Decode the tail of a `\\uXXXX` escape once the leading `\\u` of a
high surrogate has been read: expect the low surrogate and recombine. -/
def decodeSur (n : ℕ) (r3 : List Char) : Option (Char × List Char) :=
  match r3 with
  | b1 :: u1 :: a2 :: b2 :: c3 :: d2 :: r4 =>
    if b1 = '\\' ∧ u1 = 'u' then
      match hexVal4 a2 b2 c3 d2 with
      | none => none
      | some m =>
        if 0xdc00 ≤ m ∧ m < 0xe000 then
          some (Char.ofNat (0x10000 + (n - 0xd800) * 0x400 + (m - 0xdc00)), r4)
        else none
    else none
  | _ => none

/-- Decode a `\\uXXXX` escape body (the four hex digits and, for a high
surrogate, the paired low surrogate). -/
def decodeU (r2 : List Char) : Option (Char × List Char) :=
  match r2 with
  | a :: b :: c2 :: d :: r3 =>
    (match hexVal4 a b c2 d with
    | none => none
    | some n =>
      if 0xd800 ≤ n ∧ n < 0xdc00 then decodeSur n r3
      else if n < 0xd800 ∨ 0xe000 ≤ n then some (Char.ofNat n, r3)
      else none)
  | _ => none

/-- Decode one escape sequence after the leading backslash. -/
def decodeEsc (r : List Char) : Option (Char × List Char) :=
  match r with
  | [] => none
  | e :: r2 =>
    if e = '"' then some ('"', r2)
    else if e = '\\' then some ('\\', r2)
    else if e = 'b' then some ('\x08', r2)
    else if e = 'f' then some ('\x0c', r2)
    else if e = 'n' then some ('\n', r2)
    else if e = 'r' then some ('\r', r2)
    else if e = 't' then some ('\t', r2)
    else if e = 'u' then decodeU r2
    else none

/-- Read one unit of a serialized string body from the front: `none` at
the closing quote, the decoded character otherwise (surrogate pairs
recombined). -/
def unescFront (l : List Char) : Option (Option Char × List Char) :=
  match l with
  | [] => none
  | c :: r =>
    if c = '"' then some (none, r)
    else if c = '\\' then (decodeEsc r).map (fun p => (some p.1, p.2))
    else some (some c, r)

/-- Digit character test on the ASCII range. -/
def isDigitCh (c : Char) : Bool :=
  decide (48 ≤ c.toNat ∧ c.toNat ≤ 57)

/-- Convenience constructor for concrete events: `ev_base(etype, subtype,
data, sev)` with empty `data` (every `data`-derived field at its `.get`
default). -/
def mkEvent (etype esubtype : String) (sev : Int) : SEvent α :=
  { type := etype, subtype := esubtype, severity := sev, rate := 0,
    entropy := 0, min_entropy := 0, ext := "", name := "", cmdline := "",
    path := none, pid := none, signals := { ioc := [], score := 0 } }

/-- Proof-side observer: the number denoted by a digit string. -/
def readNat (l : List Char) : ℕ := l.foldl (fun a c => a * 10 + (c.toNat - 48)) 0

/-- Concrete signed-event material for checking the HMAC round trip. -/
def c1BodyA : EventBody :=
  { schema_version := ['1'], source := ['a','g','e','n','t'], host_id := ['h'],
    host_name := ['n'], host_ip := ['i'], time := ['0'],
    type := ['f','i','l','e'], subtype := [], severity := 1,
    data := [(['p','a','t','h'], JVal.s ['x'])], ioc := [['b','u','r','s','t']],
    score := 50 }

def c1BodyB : EventBody :=
  { c1BodyA with severity := 4 }

def c1EvA : WireEvent := { body := c1BodyA, hmac := [] }

def c1EvB : WireEvent := { body := c1BodyB, hmac := signEvt id c1EvA }

/-- A configuration for exercising the dispatcher on concrete events. -/
def c5Cfg : AgentCfg ℤ :=
  { file_burst_threshold_per_sec := 50, entropy_threshold := 8,
    ext_watchlist := [], quarantine_enable := false,
    quarantine_exts := [], quarantine_paths := [] }

/-- An oracle whose every side effect succeeds. -/
def c5OrcOk : DOracle :=
  { killResult := fun _ => .ok (), isolateResult := .ok (),
    quarantineResult := fun _ => .ok (), procExe := fun _ => .ok "",
    notifyResult := .ok (), publishResult := .ok (),
    gethostbyname := .ok "127.0.0.1" }

/-- An oracle whose only failing side effect is the `socket.gethostbyname`
lookup inside `ev_base` (a resolver failure). -/
def c5OrcFail : DOracle :=
  { c5OrcOk with gethostbyname := .error PyExc.error }

/-- A well-formed file event carrying a legacy WannaCry extension. -/
def c5Evt : SEvent ℤ :=
  { mkEvent "file" "create" 1 with ext := ".wnry" }

/-! ## Theorems

Helper lemmas first, then one theorem per claim (with witnesses and
counterexamples where required). -/

/-! ### File Activity Tracker lemmas -/

@[simp] lemma track_modification_window (s : FileActivityTracker α) (pid : Option Int)
    (path : String) (now : α) : (track_modification s pid path now).window = s.window := by
  rcases pid with _ | p <;> simp [track_modification, tracker_cleanup]
  split <;> rfl

@[simp] lemma track_rename_window (s : FileActivityTracker α) (pid : Option Int)
    (o n : String) (now : α) : (track_rename s pid o n now).window = s.window := by
  rcases pid with _ | p <;> simp [track_rename, tracker_cleanup]
  split <;> rfl

lemma track_modification_mods (s : FileActivityTracker α) (p : Int) (hp : p ≠ 0)
    (path : String) (now : α) :
    (track_modification s (some p) path now).modifications p
      = ((s.modifications p) ++ [(path, now)]).filter
          (fun e => decide (now - e.2 < s.window)) := by
  simp [track_modification, tracker_cleanup, hp]

lemma track_rename_mods (s : FileActivityTracker α) (p : Int) (hp : p ≠ 0)
    (o n : String) (now : α) :
    (track_rename s (some p) o n now).modifications p
      = (s.modifications p).filter (fun e => decide (now - e.2 < s.window)) := by
  simp [track_rename, tracker_cleanup, hp]

lemma track_rename_renames (s : FileActivityTracker α) (p : Int) (hp : p ≠ 0)
    (o n : String) (now : α) :
    (track_rename s (some p) o n now).renames p
      = ((s.renames p) ++ [(o, n, now)]).filter
          (fun e => decide (now - e.2.2 < s.window)) := by
  simp [track_rename, tracker_cleanup, hp]

/-- Within-window batch of modifications: all entries survive every
intermediate eviction, so they accumulate. -/
lemma trackMods_mods (p : Int) (hp : p ≠ 0) :
    ∀ (entries : List (String × α)) (s : FileActivityTracker α),
      0 < s.window →
      (∀ e ∈ s.modifications p, ∀ f ∈ entries, f.2 - e.2 < s.window) →
      List.Pairwise (fun a b : String × α => b.2 - a.2 < s.window) entries →
      (trackMods s (some p) entries).modifications p = s.modifications p ++ entries := by
  intro entries
  induction entries with
  | nil => intro s _ _ _; simp [trackMods]
  | cons e1 rest ih =>
    intro s hwin hcross hpair
    have hstep : (track_modification s (some p) e1.1 e1.2).modifications p
        = s.modifications p ++ [e1] := by
      rw [track_modification_mods s p hp]
      rw [List.filter_eq_self.mpr]
      intro a ha
      rcases List.mem_append.mp ha with h | h
      · simpa using hcross a h e1 (by simp)
      · simp at h
        subst h
        simpa using hwin
    have hpair' := List.pairwise_cons.mp hpair
    have hmain := ih (track_modification s (some p) e1.1 e1.2)
      (by simpa using hwin)
      (by
        rw [hstep]
        intro e he f hf
        rcases List.mem_append.mp he with h | h
        · simpa using hcross e h f (by simp [hf])
        · simp at h
          subst h
          simpa using hpair'.1 f hf)
      (by
        simp only [track_modification_window]
        exact hpair'.2)
    have hfold : trackMods s (some p) (e1 :: rest)
        = trackMods (track_modification s (some p) e1.1 e1.2) (some p) rest := rfl
    rw [hfold, hmain, hstep]
    simp

/-- Within-window batch of renames accumulates likewise. -/
lemma trackRenames_renames (p : Int) (hp : p ≠ 0) :
    ∀ (entries : List (String × String × α)) (s : FileActivityTracker α),
      0 < s.window →
      (∀ e ∈ s.renames p, ∀ f ∈ entries, f.2.2 - e.2.2 < s.window) →
      List.Pairwise (fun a b : String × String × α => b.2.2 - a.2.2 < s.window) entries →
      (trackRenames s (some p) entries).renames p = s.renames p ++ entries := by
  intro entries
  induction entries with
  | nil => intro s _ _ _; simp [trackRenames]
  | cons e1 rest ih =>
    intro s hwin hcross hpair
    have hstep : (track_rename s (some p) e1.1 e1.2.1 e1.2.2).renames p
        = s.renames p ++ [e1] := by
      rw [track_rename_renames s p hp]
      rw [List.filter_eq_self.mpr]
      intro a ha
      rcases List.mem_append.mp ha with h | h
      · simpa using hcross a h e1 (by simp)
      · simp at h
        subst h
        simpa using hwin
    have hpair' := List.pairwise_cons.mp hpair
    have hmain := ih (track_rename s (some p) e1.1 e1.2.1 e1.2.2)
      (by simpa using hwin)
      (by
        rw [hstep]
        intro e he f hf
        rcases List.mem_append.mp he with h | h
        · simpa using hcross e h f (by simp [hf])
        · simp at h
          subst h
          simpa using hpair'.1 f hf)
      (by
        simp only [track_rename_window]
        exact hpair'.2)
    have hfold : trackRenames s (some p) (e1 :: rest)
        = trackRenames (track_rename s (some p) e1.1 e1.2.1 e1.2.2) (some p) rest := rfl
    rw [hfold, hmain, hstep]
    simp

/-- The extension-change fold counts exactly the qualifying renames. -/
lemma check_extension_changes_countP (s : FileActivityTracker α) (pid : Int) :
    check_extension_changes s pid
      = (s.renames pid).countP (fun e => specExtChange e.1 e.2.1) := by
  unfold check_extension_changes
  have h : ∀ (l : List (String × String × α)) (n : ℕ),
      l.foldl (fun ext_changes e =>
        let old_ext := splitextLower e.1
        let new_ext := splitextLower e.2.1
        if old_ext ≠ new_ext ∧ old_ext ≠ [] ∧ new_ext ≠ [] then ext_changes + 1
        else ext_changes) n
      = n + l.countP (fun e => specExtChange e.1 e.2.1) := by
    intro l
    induction l with
    | nil => intro n; simp
    | cons e rest ih =>
      intro n
      simp only [List.foldl_cons, List.countP_cons]
      by_cases hc : splitextLower e.1 ≠ splitextLower e.2.1 ∧
          splitextLower e.1 ≠ [] ∧ splitextLower e.2.1 ≠ []
      · rw [if_pos hc, ih]
        simp [specExtChange, hc]
        omega
      · rw [if_neg hc, ih]
        simp [specExtChange, hc]
  rw [h]
  simp

/-! ### Claim C4 -/

/-- C4 counterexample: after a single `trackModification` at time 0 with
the default 60-second window, `modificationCount` is 1 — and since
`get_modification_count` neither consults the clock nor evicts, it still
returns 1 however far wall-clock time advances, not 0 as the claim
states.  (Eviction happens only inside tracker *mutations*.) -/
theorem C4_count_query_no_eviction_counterexample :
    get_modification_count
        (track_modification (trackerInit (60 : ℤ)) (some 1) "f" 0) 1 = 1 ∧
    get_modification_count
        (track_modification (trackerInit (60 : ℤ)) (some 1) "f" 0) 1 ≠ 0 := by
  decide

/-- C4 (amended): `modificationCount(pid)` equals N after N in-window
`trackModification` calls; out-of-window entries are evicted by the next
tracker *mutation* for that pid (here a tracked rename), not by count
queries — after such a mutation the count drops to the number of
still-in-window entries. -/
theorem C4_modification_count_window (α : Type) [LinearOrderedRing α] :
    (∀ (window : α) (p : Int) (entries : List (String × α)),
      0 < window → p ≠ 0 →
      List.Pairwise (fun a b : String × α => b.2 - a.2 < window) entries →
      get_modification_count (trackMods (trackerInit window) (some p) entries) p
        = entries.length) ∧
    (∀ (s : FileActivityTracker α) (p : Int) (o n : String) (T : α), p ≠ 0 →
      get_modification_count (track_rename s (some p) o n T) p
        = ((s.modifications p).filter
            (fun e => decide (T - e.2 < s.window))).length) := by
  constructor
  · intro window p entries hwin hp hpair
    unfold get_modification_count
    rw [trackMods_mods p hp entries (trackerInit window)
      (by simpa [trackerInit] using hwin)
      (by simp [trackerInit])
      (by simpa [trackerInit] using hpair)]
    simp [trackerInit]
  · intro s p o n T hp
    unfold get_modification_count
    rw [track_rename_mods s p hp o n T]

theorem C4_modification_count_window_witness :
    get_modification_count
        (trackMods (trackerInit (60 : ℤ)) (some 1) [("a", 0), ("b", 30)]) 1 = 2 ∧
    get_modification_count
        (track_rename (track_modification (trackerInit (60 : ℤ)) (some 1) "f" 0)
          (some 1) "o" "n" 60) 1 = 0 := by
  constructor
  · exact (C4_modification_count_window ℤ).1 60 1 [("a", 0), ("b", 30)]
      (by decide) (by decide) (by decide)
  · have h := (C4_modification_count_window ℤ).2
      (track_modification (trackerInit (60 : ℤ)) (some 1) "f" 0) 1 "o" "n" 60
      (by decide)
    rw [h]; decide

/-! ### Claim C9 -/

/-- C9: `extensionChangeCount(pid)` counts exactly the tracked renames
whose extensions are both non-empty and differ — stated for any tracker
state, for any in-window batch of tracked renames, and checked on the
claim's three examples (`a.docx→a.locked` counts; `a.txt→b.txt` and
`a→a.enc` do not). -/
theorem C9_extension_change_count (α : Type) [LinearOrderedRing α] :
    (∀ (s : FileActivityTracker α) (pid : Int),
      check_extension_changes s pid
        = (s.renames pid).countP (fun e => specExtChange e.1 e.2.1)) ∧
    (∀ (window : α) (p : Int) (entries : List (String × String × α)),
      0 < window → p ≠ 0 →
      List.Pairwise (fun a b : String × String × α => b.2.2 - a.2.2 < window) entries →
      check_extension_changes (trackRenames (trackerInit window) (some p) entries) p
        = entries.countP (fun e => specExtChange e.1 e.2.1)) ∧
    specExtChange "a.docx" "a.locked" = true ∧
    specExtChange "a.txt" "b.txt" = false ∧
    specExtChange "a" "a.enc" = false := by
  refine ⟨fun s pid => check_extension_changes_countP s pid, ?_, by decide, by decide, by decide⟩
  intro window p entries hwin hp hpair
  rw [check_extension_changes_countP]
  rw [trackRenames_renames p hp entries (trackerInit window)
    (by simpa [trackerInit] using hwin)
    (by simp [trackerInit])
    (by simpa [trackerInit] using hpair)]
  simp [trackerInit]

theorem C9_extension_change_count_witness :
    check_extension_changes
      (trackRenames (trackerInit (60 : ℤ)) (some 7)
        [("a.docx", "a.locked", 0), ("a.txt", "b.txt", 0), ("a", "a.enc", 0)]) 7
      = 1 := by
  have h := (C9_extension_change_count ℤ).2.1 60 7
    [("a.docx", "a.locked", 0), ("a.txt", "b.txt", 0), ("a", "a.enc", 0)]
    (by decide) (by decide) (by decide)
  rw [h]; decide

/-! ### Claim C10 -/

/-- C10: for a falsy pid (`None` or `0`), `track_rename` and
`track_modification` leave the tracker state entirely unchanged, so every
subsequent `renameCount`, `modificationCount` or `extensionChangeCount`
query (for every pid) returns the same value as before. -/
theorem C10_falsy_pid_noop (s : FileActivityTracker α) (pid : Option Int)
    (old_path new_path path : String) (t t' : α)
    (h : pid = none ∨ pid = some 0) :
    track_rename s pid old_path new_path t = s ∧
    track_modification s pid path t' = s ∧
    (∀ q, get_rename_count (track_rename s pid old_path new_path t) q
      = get_rename_count s q) ∧
    (∀ q, get_modification_count (track_modification s pid path t') q
      = get_modification_count s q) ∧
    (∀ q, check_extension_changes (track_rename s pid old_path new_path t) q
      = check_extension_changes s q) := by
  rcases h with h | h <;> subst h <;>
    simp [track_rename, track_modification]

theorem C10_falsy_pid_noop_witness :
    track_rename (trackerInit (60 : ℤ)) none "a.docx" "a.locked" 5
      = trackerInit (60 : ℤ) ∧
    track_modification (trackerInit (60 : ℤ)) (some 0) "f" 5
      = trackerInit (60 : ℤ) := by
  exact ⟨(C10_falsy_pid_noop (trackerInit (60 : ℤ)) none "a.docx" "a.locked" "f" 5 5
      (Or.inl rfl)).1,
    (C10_falsy_pid_noop (trackerInit (60 : ℤ)) (some 0) "a.docx" "a.locked" "f" 5 5
      (Or.inr rfl)).2.1⟩

/-! ### Claim C6 -/

lemma take_min_length {β : Type} (l : List β) (k : ℕ) :
    l.take (min k l.length) = l.take k := by
  rcases le_total k l.length with h | h
  · rw [min_eq_left h]
  · rw [min_eq_right h, List.take_length, List.take_of_length_le h]

lemma isEmpty_false_of_length_pos {β : Type} {l : List β} (h : 0 < l.length) :
    l.isEmpty = false := by
  cases l with
  | nil => simp at h
  | cons a t => rfl

/-- On a readable non-empty file, `advanced_entropy_check` computes
exactly the three samples of the claim (beginning, middle, last 64 KiB),
and the thresholds are applied to their mean and minimum. -/
lemma advanced_entropy_check_pos {F : Type} [LinearOrderedField F]
    (H : List ℕ → F) (bytes : List ℕ) (hb : bytes ≠ []) :
    advanced_entropy_check H (some bytes) =
      { is_suspicious := decide
          (((specSamples bytes).map H).sum / ((((specSamples bytes).map H).length : ℕ) : F) > 73 / 10
            ∧ pyMin ((specSamples bytes).map H) > 7),
        avg_entropy :=
          ((specSamples bytes).map H).sum / ((((specSamples bytes).map H).length : ℕ) : F),
        samples := (specSamples bytes).map H,
        min_entropy := some (pyMin ((specSamples bytes).map H)) } := by
  have hn : 0 < bytes.length := List.length_pos.mpr hb
  have h0 : ¬ ((0 : ℕ) ≥ bytes.length) := by omega
  have h1 : ¬ (bytes.length / 2 ≥ bytes.length) := by omega
  have h2 : ¬ (bytes.length - 65536 ≥ bytes.length) := by omega
  have d0 : (bytes.drop 0).take (min 65536 (bytes.length - 0)) = bytes.take 65536 := by
    rw [show bytes.length - 0 = (bytes.drop 0).length by simp, take_min_length]
    simp
  have d1 : (bytes.drop (bytes.length / 2)).take (min 65536 (bytes.length - bytes.length / 2))
      = (bytes.drop (bytes.length / 2)).take 65536 := by
    rw [show bytes.length - bytes.length / 2 = (bytes.drop (bytes.length / 2)).length by simp,
      take_min_length]
  have d2 : (bytes.drop (bytes.length - 65536)).take
        (min 65536 (bytes.length - (bytes.length - 65536)))
      = (bytes.drop (bytes.length - 65536)).take 65536 := by
    rw [show bytes.length - (bytes.length - 65536)
        = (bytes.drop (bytes.length - 65536)).length by simp,
      take_min_length]
  have e0 : ((bytes.take 65536)).isEmpty = false := by
    apply isEmpty_false_of_length_pos
    simp [List.length_take]
    omega
  have e1 : ((bytes.drop (bytes.length / 2)).take 65536).isEmpty = false := by
    apply isEmpty_false_of_length_pos
    simp [List.length_take, List.length_drop]
    omega
  have e2 : ((bytes.drop (bytes.length - 65536)).take 65536).isEmpty = false := by
    apply isEmpty_false_of_length_pos
    simp [List.length_take, List.length_drop]
    omega
  simp only [advanced_entropy_check, specSamples]
  rw [if_neg (by omega)]
  simp only [List.filterMap_cons, List.filterMap_nil, eq_false h0, eq_false h1, eq_false h2,
    if_false, d0, d1, d2, e0, e1, e2, Bool.false_eq_true, List.map_cons, List.map_nil]
  rfl

/-- C6: the entropy analyzer reports `is_suspicious` exactly when the
mean entropy over its up-to-three samples (beginning, middle, last
64 KiB) exceeds 7.3 and the minimum sample entropy exceeds 7.0; a
zero-length or unreadable file reports not-suspicious with average
entropy 0.  Stated for every per-sample entropy function `H` (the
float Shannon computation abstracted into the ordered field `F`). -/
theorem C6_entropy_thresholds (F : Type) [LinearOrderedField F] (H : List ℕ → F) :
    advanced_entropy_check H none
      = { is_suspicious := false, avg_entropy := 0, samples := [], min_entropy := none } ∧
    advanced_entropy_check H (some [])
      = { is_suspicious := false, avg_entropy := 0, samples := [], min_entropy := none } ∧
    (∀ bytes : List ℕ, bytes ≠ [] →
      (advanced_entropy_check H (some bytes)).samples = (specSamples bytes).map H ∧
      ((advanced_entropy_check H (some bytes)).is_suspicious = true ↔
        (((specSamples bytes).map H).sum / ((((specSamples bytes).map H).length : ℕ) : F) > 73 / 10 ∧
          pyMin ((specSamples bytes).map H) > 7))) := by
  refine ⟨rfl, rfl, ?_⟩
  intro bytes hb
  rw [advanced_entropy_check_pos H bytes hb]
  exact ⟨rfl, by simp⟩

theorem C6_entropy_thresholds_witness :
    (advanced_entropy_check (fun _ => (8 : ℚ)) (some [0])).is_suspicious = true := by
  have h := ((C6_entropy_thresholds ℚ (fun _ => 8)).2.2 [0] (by decide)).2
  apply h.mpr
  constructor
  · norm_num [specSamples, pyMin]
  · norm_num [specSamples, pyMin]

/-! ### Claim C8 -/

/-- C8 counterexample: a playbook whose `triggers` carry the *present*
field `type: ""` is included by `match_playbooks` for a `type="file"`
event (Python's `if pb_type and ...` treats a falsy trigger as a
wildcard), although the claim's rule — every present trigger field
satisfied by exact string equality — rejects it. -/
theorem C8_empty_trigger_counterexample :
    match_playbooks
        [({ name := "t", triggers := { type := some "" }, actions := [] } : Playbook)]
        (mkEvent (α := ℤ) "file" "create" 4)
      = [({ name := "t", triggers := { type := some "" }, actions := [] } : Playbook)] ∧
    claimPBMatch (mkEvent (α := ℤ) "file" "create" 4)
        ({ name := "t", triggers := { type := some "" }, actions := [] } : Playbook)
      = false := by
  decide

/-- C8 (amended): a playbook is included exactly when every present and
*non-falsy* trigger field is satisfied — `min_severity` whenever present
requires `severity ≥ value`; `type`/`subtype` require exact equality
whenever present and non-empty (an empty string, like an absent field,
acts as a wildcard under Python truthiness).  The claim's three concrete
examples hold as stated. -/
theorem C8_playbook_matching (α : Type) [LinearOrderedRing α] :
    (∀ (pbs : List Playbook) (evt : SEvent α) (pb : Playbook),
      pb ∈ match_playbooks pbs evt ↔
        (pb ∈ pbs ∧
          (∀ v, pb.triggers.min_severity = some v → evt.severity ≥ v) ∧
          (∀ t, pb.triggers.type = some t → t ≠ "" → evt.type = t) ∧
          (∀ t, pb.triggers.subtype = some t → t ≠ "" → evt.subtype = t))) ∧
    match_playbooks
        [({ name := "x", triggers := { min_severity := some 3, type := some "file" },
            actions := [] } : Playbook)] (mkEvent (α := α) "file" "create" 4)
      = [({ name := "x", triggers := { min_severity := some 3, type := some "file" },
            actions := [] } : Playbook)] ∧
    match_playbooks
        [({ name := "x", triggers := { min_severity := some 3, type := some "file" },
            actions := [] } : Playbook)] (mkEvent (α := α) "process" "start" 4)
      = [] ∧
    match_playbooks
        [({ name := "x", triggers := { min_severity := some 3, type := some "file" },
            actions := [] } : Playbook)] (mkEvent (α := α) "file" "create" 2)
      = [] := by
  refine ⟨?_, by simp [match_playbooks, pb_matches, mkEvent],
    by simp [match_playbooks, pb_matches, mkEvent],
    by simp [match_playbooks, pb_matches, mkEvent]⟩
  intro pbs evt pb
  simp only [match_playbooks, List.mem_filter, and_congr_right_iff]
  intro _
  rcases h1 : pb.triggers.min_severity with _ | v <;>
    rcases h2 : pb.triggers.type with _ | t <;>
    rcases h3 : pb.triggers.subtype with _ | u <;>
    simp [pb_matches, h1, h2, h3, not_lt, ge_iff_le] <;> tauto

/-! ### Scorer lemmas (claims C2, C3) -/

lemma iWeights_append (l1 l2 : List (String × Int)) :
    iWeights (l1 ++ l2) = iWeights l1 + iWeights l2 := by
  simp [iWeights]

lemma iTags_append (l1 l2 : List (String × Int)) :
    iTags (l1 ++ l2) = iTags l1 ++ iTags l2 := by
  simp [iTags]

lemma scoreFileBlock_spec (cfg : AgentCfg α) (evt : SEvent α) (acc : Int × List String) :
    scoreFileBlock cfg evt acc
      = (acc.1 + iWeights (specFileIndicators cfg evt),
         acc.2 ++ iTags (specFileIndicators cfg evt)) := by
  by_cases ht : evt.type = "file"
  · simp only [scoreFileBlock, specFileIndicators, ht, eq_self_iff_true, true_and, if_pos]
    split_ifs <;> simp [iWeights, iTags] <;> omega
  · simp [scoreFileBlock, specFileIndicators, ht, iWeights, iTags]

lemma scoreProcessBlock_spec (evt : SEvent α) (acc : Int × List String) :
    scoreProcessBlock evt acc
      = (acc.1 + iWeights (specProcessIndicators evt),
         acc.2 ++ iTags (specProcessIndicators evt)) := by
  by_cases ht : evt.type = "process"
  · simp only [scoreProcessBlock, specProcessIndicators, ht, eq_self_iff_true, true_and, if_pos]
    split_ifs <;> simp [iWeights, iTags] <;> omega
  · simp [scoreProcessBlock, specProcessIndicators, ht, iWeights, iTags]

lemma scoreTail_spec (evt : SEvent α) (acc : Int × List String) :
    scoreRegistryBlock evt (scoreRansomwareBlock evt (scoreResourceBlock evt
      (scoreShadowBlock evt (scoreSystemBlock evt acc))))
      = (acc.1 + iWeights (specTailIndicators evt),
         acc.2 ++ iTags (specTailIndicators evt)) := by
  simp only [scoreSystemBlock, scoreShadowBlock, scoreResourceBlock, scoreRansomwareBlock,
    scoreRegistryBlock, specTailIndicators]
  split_ifs <;> simp [iWeights, iTags] <;> omega

/-- The full indicator chain computes the spec-side list's weights and
tags. -/
lemma calculate_blocks (cfg : AgentCfg α) (evt : SEvent α) :
    scoreRegistryBlock evt (scoreRansomwareBlock evt (scoreResourceBlock evt
      (scoreShadowBlock evt (scoreSystemBlock evt (scoreProcessBlock evt
        (scoreFileBlock cfg evt ((0 : Int), ([] : List String))))))))
      = (iWeights (specIndicators cfg evt), iTags (specIndicators cfg evt)) := by
  rw [scoreFileBlock_spec, scoreProcessBlock_spec, scoreTail_spec]
  simp only [specIndicators, iWeights_append, iTags_append]
  rw [Prod.ext_iff]
  constructor
  · simp
  · simp

/-! ### Dispatcher lemmas (claims C3, C5) -/

lemma swallow_skip (b : Bool) :
    (tryCatch (if b = true then throw PyExc.stopIteration else pure ())
      (fun _ => (pure () : Except PyExc Unit))) = pure () := by
  cases b <;> rfl

/-- The quarantine-on-create block always returns normally, with the
event either untouched or with its severity raised to the floor 3. -/
lemma quarOnCreate_ok (cfg : AgentCfg α) (orc : DOracle) (evt : SEvent α) :
    quarOnCreateBlock cfg orc evt = .ok evt ∨
    quarOnCreateBlock cfg orc evt = .ok { evt with severity := max evt.severity 3 } := by
  unfold quarOnCreateBlock
  by_cases h1 : cfg.quarantine_enable = true ∧ evt.type = "file" ∧
      (evt.subtype = "create" ∨ evt.subtype = "rename" ∨ evt.subtype = "write")
  · by_cases h2 : (evt.path).getD "" ≠ ""
    · simp only [h1, h2, if_true, if_false, eq_self_iff_true, true_and, and_true, if_pos,
        swallow_skip, pure_bind]
      by_cases h4 : (((cfg.quarantine_exts.map asciiLower).isEmpty ||
            (cfg.quarantine_exts.map asciiLower).contains (asciiLower evt.ext)) &&
          ((cfg.quarantine_paths.map asciiLower).isEmpty ||
            (cfg.quarantine_paths.map asciiLower).any
              (fun b => startsWithL b.data (asciiLower ((evt.path).getD "")).data))) = true
      · rw [if_pos h4]
        rcases hq : orc.quarantineResult ((evt.path).getD "") with u | e <;>
          simp only [Except.map, hq] <;> rw [if_pos h2] <;> right <;> rfl
      · rw [if_neg h4, if_pos h2]
        left; rfl
    · simp only [h1, if_true, if_false, eq_self_iff_true, true_and, and_true, if_pos]
      rw [if_neg h2]
      left; rfl
  · left
    rw [if_neg ?hc]
    · rfl
    · exact fun hh => h1 (by simpa using hh)

/-- The built-in quarantine block always returns the event unchanged. -/
lemma builtinQuarantine_ok (cfg : AgentCfg α) (orc : DOracle) (evt : SEvent α) :
    builtinQuarantineBlock cfg orc evt = .ok evt := by
  unfold builtinQuarantineBlock
  split_ifs with h1
  · rcases hp : evt.path with _ | p
    · rfl
    · simp only []
      split_ifs with h2
      · rcases hq : orc.quarantineResult p with u | e <;>
          simp only [Except.map, hq] <;> rfl
      · rfl
  · rfl

lemma playbookBlock_ok (pbs : List Playbook) (orc : DOracle) (evt : SEvent α) :
    playbookBlock pbs orc evt = .ok () := by
  unfold playbookBlock
  cases h : (match_playbooks pbs evt).isEmpty <;> simp only [h, if_true, if_false,
    Bool.false_eq_true] <;> rfl

lemma publishBlock_ok (orc : DOracle) :
    publishBlock orc = .ok () := by
  rcases hq : orc.publishResult with u | e <;> unfold publishBlock <;> rw [hq] <;> rfl

lemma ok_bind {β γ : Type} (a : β) (f : β → Except PyExc γ) :
    (Except.ok a >>= f) = f a := rfl

/-- One dispatcher iteration: when the legacy `ev_base` host-IP lookup
path returns, the iteration returns `ok` (every other side-effect
failure is suppressed) and its processed event is exactly the scored
event after the quarantine-on-create block; when that lookup raises, the
exception propagates out of the body. -/
lemma dispatchBody_characterize (cfg : AgentCfg α) (pbs : List Playbook)
    (orc : DOracle) (evt0 : SEvent α) :
    (∀ ems, legacyWannacry orc (calculate_threat_score cfg evt0) = .ok ems →
      ∃ evt', quarOnCreateBlock cfg orc (calculate_threat_score cfg evt0) = .ok evt' ∧
        dispatchBody cfg pbs orc evt0 = .ok (evt', ems)) ∧
    (∀ e, legacyWannacry orc (calculate_threat_score cfg evt0) = .error e →
      dispatchBody cfg pbs orc evt0 = .error e) := by
  constructor
  · intro ems hle
    rcases quarOnCreate_ok cfg orc (calculate_threat_score cfg evt0) with h | h <;>
      refine ⟨_, h, ?_⟩ <;>
      · simp only [dispatchBody]
        rw [hle, ok_bind, h, ok_bind, builtinQuarantine_ok, ok_bind, playbookBlock_ok,
          ok_bind, publishBlock_ok, ok_bind]
        rfl
  · intro e hle
    simp only [dispatchBody]
    rw [hle]
    rfl

/-! ### Claim C2 -/

/-- C2: `calculate_threat_score` writes into `signals.score` the sum of
the reference weights of exactly the matched indicators, clamped to
[0,100] (as `min 100`, the sum being non-negative), and appends one tag
per matched indicator to `signals.ioc` in evaluation order
(`specIndicators` lists the claim's indicators in the claim's order with
the claim's weights). -/
theorem C2_threat_score (α : Type) [LinearOrderedRing α]
    (cfg : AgentCfg α) (evt : SEvent α) :
    (calculate_threat_score cfg evt).signals.score
      = min 100 (iWeights (specIndicators cfg evt)) ∧
    (calculate_threat_score cfg evt).signals.ioc
      = evt.signals.ioc ++ iTags (specIndicators cfg evt) := by
  constructor <;> simp only [calculate_threat_score, calculate_blocks]

/-! ### Claim C3 -/

/-- C3: severity is never lowered — after scoring, severity is at least
4/3/2 when the computed score is ≥80/≥60/≥40 and unchanged otherwise;
the dispatcher's quarantine path only raises severity (to a floor of 3);
and a full dispatcher iteration never outputs an event with severity
below its input's. -/
theorem C3_severity_never_lowered (α : Type) [LinearOrderedRing α] (cfg : AgentCfg α)
    (pbs : List Playbook) (orc : DOracle) (evt : SEvent α) :
    ((calculate_threat_score cfg evt).signals.score ≥ 80 →
      (calculate_threat_score cfg evt).severity ≥ 4) ∧
    ((calculate_threat_score cfg evt).signals.score ≥ 60 →
      (calculate_threat_score cfg evt).severity ≥ 3) ∧
    ((calculate_threat_score cfg evt).signals.score ≥ 40 →
      (calculate_threat_score cfg evt).severity ≥ 2) ∧
    ((calculate_threat_score cfg evt).signals.score < 40 →
      (calculate_threat_score cfg evt).severity = evt.severity) ∧
    evt.severity ≤ (calculate_threat_score cfg evt).severity ∧
    (∀ evt', quarOnCreateBlock cfg orc evt = .ok evt' →
      evt.severity ≤ evt'.severity ∧ evt'.severity ≤ max evt.severity 3) ∧
    (∀ out, dispatchBody cfg pbs orc evt = .ok out → evt.severity ≤ out.1.severity) := by
  have hsc : ((calculate_threat_score cfg evt).signals.score ≥ 80 →
      (calculate_threat_score cfg evt).severity ≥ 4) ∧
      ((calculate_threat_score cfg evt).signals.score ≥ 60 →
        (calculate_threat_score cfg evt).severity ≥ 3) ∧
      ((calculate_threat_score cfg evt).signals.score ≥ 40 →
        (calculate_threat_score cfg evt).severity ≥ 2) ∧
      ((calculate_threat_score cfg evt).signals.score < 40 →
        (calculate_threat_score cfg evt).severity = evt.severity) ∧
      evt.severity ≤ (calculate_threat_score cfg evt).severity := by
    simp only [calculate_threat_score, calculate_blocks]
    set w := iWeights (specIndicators cfg evt) with hw
    split_ifs <;> refine ⟨?_, ?_, ?_, ?_, ?_⟩ <;> simp_all <;> omega
  refine ⟨hsc.1, hsc.2.1, hsc.2.2.1, hsc.2.2.2.1, hsc.2.2.2.2, ?_, ?_⟩
  · intro evt' h
    rcases quarOnCreate_ok cfg orc evt with h0 | h0 <;> rw [h0] at h <;>
      have he := Except.ok.inj h <;> subst he
    · exact ⟨le_rfl, le_max_left _ _⟩
    · exact ⟨le_max_left _ _, le_rfl⟩
  · intro out h
    obtain ⟨hok, herr⟩ := dispatchBody_characterize cfg pbs orc evt
    rcases hle : legacyWannacry orc (calculate_threat_score cfg evt) with e | ems
    · rw [herr e hle] at h
      cases h
    · obtain ⟨evt', hq, hbody⟩ := hok ems hle
      rw [hbody] at h
      have he := (Except.ok.inj h).symm
      rcases quarOnCreate_ok cfg orc (calculate_threat_score cfg evt) with h0 | h0 <;>
        rw [h0] at hq <;> have he2 := Except.ok.inj hq <;> subst he2 <;> subst he <;>
        simp only []
      · exact hsc.2.2.2.2
      · exact le_trans hsc.2.2.2.2 (le_max_left _ _)

theorem C3_severity_never_lowered_witness :
    (calculate_threat_score
        ({ file_burst_threshold_per_sec := 50, entropy_threshold := 8,
           ext_watchlist := [], quarantine_enable := false,
           quarantine_exts := [], quarantine_paths := [] } : AgentCfg ℤ)
        (mkEvent "ransomware" "ransom_note_detected" 1)).severity ≥ 3 := by
  exact (C3_severity_never_lowered ℤ
    ({ file_burst_threshold_per_sec := 50, entropy_threshold := 8,
       ext_watchlist := [], quarantine_enable := false,
       quarantine_exts := [], quarantine_paths := [] } : AgentCfg ℤ)
    []
    ({ killResult := fun _ => .ok (), isolateResult := .ok (),
       quarantineResult := fun _ => .ok (), procExe := fun _ => .ok "",
       notifyResult := .ok (), publishResult := .ok (),
       gethostbyname := .ok "127.0.0.1" } : DOracle)
    (mkEvent "ransomware" "ransom_note_detected" 1)).2.1 (by decide)

/-! ### Claim C5 -/

lemma legacyWannacry_ok_of_lookup (orc : DOracle) (evt : SEvent α) (ip : String)
    (h : orc.gethostbyname = .ok ip) :
    ∃ ems, legacyWannacry orc evt = .ok ems := by
  unfold legacyWannacry
  split_ifs
  · exact ⟨[wannacryEvent], by rw [h]; rfl⟩
  · exact ⟨[], rfl⟩

/-- C5 counterexample: a well-formed file event (`c5Evt`, a created file
with extension `.wnry`) and an oracle whose only failing side effect is
the `socket.gethostbyname` lookup inside `ev_base` (line 54) refute the
claim that one full dispatcher iteration raises no uncaught exception
regardless of failures in its side effects: the legacy WannaCry path
(line 722) calls `ev_base` under the outer `try`, whose only handler is
`except queue.Empty` (line 790), so the resolver failure escapes the
loop body. -/
theorem C5_resolver_crash_counterexample :
    ¬ ∃ out, dispatchBody c5Cfg [] c5OrcFail c5Evt = Except.ok out := by
  rintro ⟨out, ho⟩
  rw [show dispatchBody c5Cfg [] c5OrcFail c5Evt = Except.error PyExc.error
    from rfl] at ho
  cases ho

/-- C5 (amended): one full iteration of the dispatcher loop body —
scoring, legacy signature check, quarantine rules, playbook
matching/execution, publish — returns normally (`Except.ok`) for every
well-formed event, every configuration and every outcome of the
response-path side effects (process killing, filesystem quarantine,
notification, publishing may all fail), *provided* the legacy path's
`ev_base` host-IP lookup succeeds; returning normally is moreover
equivalent to the legacy `ev_base` construction not raising — that
lookup is the body's only uncaught exception source. -/
theorem C5_dispatcher_no_crash (α : Type) [LinearOrderedRing α] (cfg : AgentCfg α)
    (pbs : List Playbook) (orc : DOracle) (evt : SEvent α) :
    (∀ ip, orc.gethostbyname = Except.ok ip →
      ∃ out, dispatchBody cfg pbs orc evt = Except.ok out) ∧
    ((∃ out, dispatchBody cfg pbs orc evt = Except.ok out) ↔
      (∃ ems, legacyWannacry orc (calculate_threat_score cfg evt)
        = Except.ok ems)) := by
  obtain ⟨hok, herr⟩ := dispatchBody_characterize cfg pbs orc evt
  have hiff : (∃ out, dispatchBody cfg pbs orc evt = Except.ok out) ↔
      (∃ ems, legacyWannacry orc (calculate_threat_score cfg evt)
        = Except.ok ems) := by
    constructor
    · rintro ⟨out, h⟩
      rcases hle : legacyWannacry orc (calculate_threat_score cfg evt) with e | ems
      · rw [herr e hle] at h
        cases h
      · exact ⟨ems, rfl⟩
    · rintro ⟨ems, hle⟩
      obtain ⟨evt', _, hbody⟩ := hok ems hle
      exact ⟨_, hbody⟩
  refine ⟨?_, hiff⟩
  intro ip hip
  exact hiff.mpr (legacyWannacry_ok_of_lookup orc _ ip hip)

theorem C5_dispatcher_no_crash_witness :
    ∃ out, dispatchBody c5Cfg [] c5OrcOk c5Evt = Except.ok out :=
  (C5_dispatcher_no_crash ℤ c5Cfg [] c5OrcOk c5Evt).1 "127.0.0.1" rfl

/-! ### Quarantine manager lemmas (claim C7) -/


lemma foldl_basename_no_sep (f : List Char → Char → List Char)
    (hf : f = fun acc c => if c = '\\' ∨ c = '/' then [] else acc ++ [c]) :
    ∀ (p acc : List Char), (∀ c ∈ acc, ¬(c = '\\' ∨ c = '/')) →
      ∀ c ∈ p.foldl f acc, ¬(c = '\\' ∨ c = '/') := by
  intro p
  induction p with
  | nil => intro acc hacc; simpa using hacc
  | cons x xs ih =>
    intro acc hacc
    rw [List.foldl_cons]
    apply ih
    subst hf
    by_cases hx : x = '\\' ∨ x = '/'
    · simp [hx]
    · simp only [hx, if_false]
      intro c hc
      rcases List.mem_append.mp hc with h | h
      · exact hacc c h
      · simp at h; subst h; exact hx

lemma basenameL_no_sep (p : List Char) :
    ∀ c ∈ basenameL p, ¬(c = '\\' ∨ c = '/') := by
  unfold basenameL
  exact foldl_basename_no_sep _ rfl p [] (by simp)

lemma foldl_basename_sep_free (b acc : List Char)
    (hb : ∀ c ∈ b, ¬(c = '\\' ∨ c = '/')) :
    b.foldl (fun acc c => if c = '\\' ∨ c = '/' then [] else acc ++ [c]) acc
      = acc ++ b := by
  induction b generalizing acc with
  | nil => simp
  | cons x xs ih =>
    rw [List.foldl_cons]
    have hx : ¬(x = '\\' ∨ x = '/') := hb x (by simp)
    rw [if_neg hx, ih _ (fun c hc => hb c (by simp [hc]))]
    simp

lemma basenameL_append_sep (a b : List Char)
    (hb : ∀ c ∈ b, ¬(c = '\\' ∨ c = '/')) :
    basenameL (a ++ '\\' :: b) = b := by
  unfold basenameL
  rw [List.foldl_append, List.foldl_cons]
  rw [if_pos (Or.inl rfl)]
  exact foldl_basename_sep_free b [] hb

lemma path_ne_quarDst (ts : String) (digest : Option String) (path : String) :
    path ≠ quarDst ts digest path := by
  intro h
  have hdata : path.data = (quarDst ts digest path).data := by rw [← h]
  have hq : (quarDst ts digest path).data
      = (quarCaseDir ts digest).data ++ '\\' :: (basenameL path.data ++ (".quarantined").data) := by
    simp [quarDst, basenameS, String.data_append]
  have hlit : ∀ c ∈ (".quarantined").data, ¬(c = '\\' ∨ c = '/') := by decide
  have hsB : ∀ c ∈ basenameL path.data ++ (".quarantined").data, ¬(c = '\\' ∨ c = '/') := by
    intro c hc
    rcases List.mem_append.mp hc with hm | hm
    · exact basenameL_no_sep _ c hm
    · exact hlit c hm
  have hb : basenameL path.data = basenameL path.data ++ (".quarantined").data := by
    conv_lhs => rw [hdata, hq]
    exact basenameL_append_sep _ _ hsB
  have hlen := congrArg List.length hb
  simp [List.length_append] at hlen


/-- C7: for an existing, readable file (hash and manifest write succeed,
rename succeeds), after `quarantine_file(path)`: the original path no
longer exists, the quarantined copy holds the original contents (so its
SHA-256 is the hash computed at the original location), and the manifest
records exactly that hash and `original_path = path`; `quarantine_file`
is a no-op when the path does not exist. -/
theorem C7_quarantine_file (hashFn : List ℕ → String) (orc : QOrc) (ts : String)
    (fs : FS) (path : String) (contents : List ℕ)
    (hf : fs.files path = some contents)
    (hh : orc.hashOk = true) (hr : orc.renameOk = true) (hw : orc.writeOk = true) :
    (quarantine_file hashFn orc ts fs path).files path = none ∧
    (quarantine_file hashFn orc ts fs path).files
        (quarDst ts (quarDigest hashFn orc contents) path) = some contents ∧
    (quarantine_file hashFn orc ts fs path).manifests
        (quarCaseDir ts (quarDigest hashFn orc contents) ++ "\\manifest.json")
      = some { original_path := path,
               quarantined_path := quarDst ts (quarDigest hashFn orc contents) path,
               size_bytes := some contents.length,
               sha256 := some (hashFn contents), quarantined_at := ts } ∧
    (∀ (fs0 : FS) (p0 : String), fs0.files p0 = none →
      quarantine_file hashFn orc ts fs0 p0 = fs0) := by
  have hne : path ≠ quarDst ts (some (hashFn contents)) path := by
    simpa [quarDigest, hh] using path_ne_quarDst ts (quarDigest hashFn orc contents) path
  refine ⟨?_, ?_, ?_, ?_⟩
  · unfold quarantine_file
    simp only [hf, hr, if_true, hw]
    split_ifs <;> simp [fsRename, hne, quarDigest, hh]
  · unfold quarantine_file
    simp only [hf, hr, if_true, hw]
    split_ifs <;> simp [fsRename, quarDigest, hh]
  · unfold quarantine_file
    simp only [hf, hr, if_true, hw]
    split_ifs <;> simp [fsRename, setFile, quarDigest, hh]
  · intro fs0 p0 h0
    unfold quarantine_file
    simp [h0]


theorem C7_quarantine_file_witness :
    (quarantine_file (fun _ => "0123456789abcdef")
        ({ hashOk := true, renameOk := true, copyOk := true, removeOk := true,
           chmodOk := true, writeOk := true } : QOrc)
        "20240101T000000Z"
        ({ files := fun q => if q = "C:\\data\\doc.txt" then some [1, 2, 3] else none,
           readOnly := fun _ => false, manifests := fun _ => none } : FS)
        "C:\\data\\doc.txt").files "C:\\data\\doc.txt" = none ∧
    (quarantine_file (fun _ => "0123456789abcdef")
        ({ hashOk := true, renameOk := true, copyOk := true, removeOk := true,
           chmodOk := true, writeOk := true } : QOrc)
        "20240101T000000Z"
        ({ files := fun q => if q = "C:\\data\\doc.txt" then some [1, 2, 3] else none,
           readOnly := fun _ => false, manifests := fun _ => none } : FS)
        "C:\\data\\doc.txt").files
      (quarDst "20240101T000000Z"
        (quarDigest (fun _ => "0123456789abcdef")
          ({ hashOk := true, renameOk := true, copyOk := true, removeOk := true,
             chmodOk := true, writeOk := true } : QOrc) [1, 2, 3])
        "C:\\data\\doc.txt") = some [1, 2, 3] := by
  have h := C7_quarantine_file (fun _ => "0123456789abcdef")
    ({ hashOk := true, renameOk := true, copyOk := true, removeOk := true,
       chmodOk := true, writeOk := true } : QOrc)
    "20240101T000000Z"
    ({ files := fun q => if q = "C:\\data\\doc.txt" then some [1, 2, 3] else none,
       readOnly := fun _ => false, manifests := fun _ => none } : FS)
    "C:\\data\\doc.txt" [1, 2, 3] (by decide) rfl rfl rfl
  exact ⟨h.1, h.2.1⟩


/-! ### C1: canonical-serialization injectivity and the HMAC round trip -/

lemma char_not_surrogate (c : Char) : c.toNat < 0xd800 ∨ 0xe000 ≤ c.toNat := by
  rcases c.valid with h | h
  · exact Or.inl h
  · exact Or.inr h.1

lemma char_lt (c : Char) : c.toNat < 1114112 := by
  rcases c.valid with h | h
  · exact lt_trans h (by norm_num)
  · exact h.2

lemma hexVal_hexDigit : ∀ m, m < 16 → hexVal (hexDigit m) = some m := by decide

lemma hexVal4_hex4 (n : ℕ) (hn : n < 65536) :
    hexVal4 (hexDigit (n / 4096 % 16)) (hexDigit (n / 256 % 16))
      (hexDigit (n / 16 % 16)) (hexDigit (n % 16)) = some n := by
  rw [hexVal4, hexVal_hexDigit _ (Nat.mod_lt _ (by norm_num)),
    hexVal_hexDigit _ (Nat.mod_lt _ (by norm_num)),
    hexVal_hexDigit _ (Nat.mod_lt _ (by norm_num)),
    hexVal_hexDigit _ (Nat.mod_lt _ (by norm_num))]
  simp only [Option.some.injEq]
  omega

lemma decodeU_hex4 (n : ℕ) (hn : n < 65536) (hs : n < 0xd800 ∨ 0xe000 ≤ n) (r : List Char) :
    decodeU (hex4 n ++ r) = some (Char.ofNat n, r) := by
  simp only [hex4, List.cons_append, List.nil_append]
  rw [decodeU]
  rw [hexVal4_hex4 n hn]
  simp only []
  rw [if_neg (by omega), if_pos hs]

lemma decodeU_sur (n : ℕ) (h1 : 65536 ≤ n) (h2 : n < 1114112) (r : List Char) :
    decodeU (hex4 (0xd800 + (n - 0x10000) / 0x400) ++
      '\\' :: 'u' :: (hex4 (0xdc00 + (n - 0x10000) % 0x400) ++ r))
      = some (Char.ofNat n, r) := by
  simp only [hex4, List.cons_append, List.nil_append, List.append_assoc]
  rw [decodeU]
  rw [hexVal4_hex4 (55296 + (n - 65536) / 1024) (by omega)]
  simp only []
  rw [if_pos (by omega : 55296 ≤ 55296 + (n - 65536) / 1024 ∧
    55296 + (n - 65536) / 1024 < 56320)]
  rw [decodeSur]
  rw [if_pos (⟨rfl, rfl⟩ : ('\\' : Char) = '\\' ∧ ('u' : Char) = 'u')]
  rw [hexVal4_hex4 (56320 + (n - 65536) % 1024) (by omega)]
  simp only []
  rw [if_pos (by omega : 56320 ≤ 56320 + (n - 65536) % 1024 ∧
    56320 + (n - 65536) % 1024 < 57344)]
  have harith : 65536 + (55296 + (n - 65536) / 1024 - 55296) * 1024 +
      (56320 + (n - 65536) % 1024 - 56320) = n := by omega
  rw [harith]

lemma unescFront_backslash (r : List Char) :
    unescFront ('\\' :: r) = (decodeEsc r).map (fun p => (some p.1, p.2)) := by
  rw [unescFront]
  rw [if_neg (by decide : ¬ ('\\' : Char) = '"'), if_pos rfl]

lemma decodeEsc_u (r : List Char) : decodeEsc ('u' :: r) = decodeU r := by
  rw [decodeEsc]
  rw [if_neg (by decide : ¬ ('u' : Char) = '"'), if_neg (by decide : ¬ ('u' : Char) = '\\'),
    if_neg (by decide : ¬ ('u' : Char) = 'b'), if_neg (by decide : ¬ ('u' : Char) = 'f'),
    if_neg (by decide : ¬ ('u' : Char) = 'n'), if_neg (by decide : ¬ ('u' : Char) = 'r'),
    if_neg (by decide : ¬ ('u' : Char) = 't'), if_pos rfl]

/-- `unescFront` inverts one escaped character from the front. -/
lemma unescFront_esc (c : Char) (x : List Char) :
    unescFront (escChar c ++ x) = some (some c, x) := by
  by_cases h1 : c = '"'
  · subst h1; rfl
  by_cases h2 : c = '\\'
  · subst h2; rfl
  by_cases h3 : c = '\x08'
  · subst h3; rfl
  by_cases h4 : c = '\x0c'
  · subst h4; rfl
  by_cases h5 : c = '\n'
  · subst h5; rfl
  by_cases h6 : c = '\r'
  · subst h6; rfl
  by_cases h7 : c = '\t'
  · subst h7; rfl
  by_cases h8 : 0x20 ≤ c.toNat ∧ c.toNat ≤ 0x7e
  · have he : escChar c = [c] := by
      unfold escChar
      rw [if_neg h1, if_neg h2, if_neg h3, if_neg h4, if_neg h5, if_neg h6, if_neg h7,
        if_pos h8]
    rw [he]
    rw [List.cons_append, List.nil_append, unescFront]
    rw [if_neg h1, if_neg h2]
  by_cases h9 : c.toNat < 0x10000
  · have he : escChar c = '\\' :: 'u' :: hex4 c.toNat := by
      unfold escChar
      rw [if_neg h1, if_neg h2, if_neg h3, if_neg h4, if_neg h5, if_neg h6, if_neg h7,
        if_neg h8, if_pos h9]
    rw [he]
    simp only [List.cons_append]
    rw [unescFront_backslash, decodeEsc_u,
      decodeU_hex4 c.toNat h9 (char_not_surrogate c) x, Char.ofNat_toNat]
    rfl
  · have hc := char_lt c
    have he : escChar c = ('\\' :: 'u' :: hex4 (0xd800 + (c.toNat - 0x10000) / 0x400)) ++
        '\\' :: 'u' :: hex4 (0xdc00 + (c.toNat - 0x10000) % 0x400) := by
      unfold escChar
      rw [if_neg h1, if_neg h2, if_neg h3, if_neg h4, if_neg h5, if_neg h6, if_neg h7,
        if_neg h8, if_neg h9]
    rw [he]
    simp only [List.cons_append, List.append_assoc]
    rw [unescFront_backslash, decodeEsc_u,
      decodeU_sur c.toNat (by omega) hc x, Char.ofNat_toNat]
    rfl

lemma escStr_quote_unamb : ∀ (s1 s2 r1 r2 : List Char),
    escStr s1 ++ '"' :: r1 = escStr s2 ++ '"' :: r2 → s1 = s2 ∧ r1 = r2 := by
  intro s1
  induction s1 with
  | nil =>
    intro s2 r1 r2 h
    cases s2 with
    | nil =>
      simp only [escStr, List.flatMap_nil, List.nil_append, List.cons.injEq] at h
      exact ⟨rfl, h.2⟩
    | cons c s2' =>
      exfalso
      have h2 := congrArg unescFront h
      rw [show escStr [] ++ '"' :: r1 = '"' :: r1 by simp [escStr]] at h2
      rw [show escStr (c :: s2') ++ '"' :: r2 = escChar c ++ (escStr s2' ++ '"' :: r2) by
        simp [escStr, List.append_assoc]] at h2
      rw [unescFront_esc] at h2
      have h3 : unescFront ('"' :: r1) = some (none, r1) := rfl
      rw [h3] at h2
      simp at h2
  | cons c s1' ih =>
    intro s2 r1 r2 h
    cases s2 with
    | nil =>
      exfalso
      have h2 := congrArg unescFront h
      rw [show escStr [] ++ '"' :: r2 = '"' :: r2 by simp [escStr]] at h2
      rw [show escStr (c :: s1') ++ '"' :: r1 = escChar c ++ (escStr s1' ++ '"' :: r1) by
        simp [escStr, List.append_assoc]] at h2
      rw [unescFront_esc] at h2
      have h3 : unescFront ('"' :: r2) = some (none, r2) := rfl
      rw [h3] at h2
      simp at h2
    | cons c2 s2' =>
      have h2 := congrArg unescFront h
      rw [show escStr (c :: s1') ++ '"' :: r1 = escChar c ++ (escStr s1' ++ '"' :: r1) by
        simp [escStr, List.append_assoc]] at h2
      rw [show escStr (c2 :: s2') ++ '"' :: r2 = escChar c2 ++ (escStr s2' ++ '"' :: r2) by
        simp [escStr, List.append_assoc]] at h2
      rw [unescFront_esc, unescFront_esc] at h2
      simp only [Option.some.injEq, Prod.mk.injEq] at h2
      obtain ⟨hc, ht⟩ := h2
      obtain ⟨hs, hr⟩ := ih s2' r1 r2 ht
      exact ⟨by rw [hc, hs], hr⟩

/-- A serialized string literal determines the string and remainder. -/
lemma serStr_unamb (s1 s2 x1 x2 : List Char)
    (h : serStr s1 ++ x1 = serStr s2 ++ x2) : s1 = s2 ∧ x1 = x2 := by
  rw [show serStr s1 ++ x1 = '"' :: (escStr s1 ++ '"' :: x1) by
    simp [serStr, List.append_assoc], show serStr s2 ++ x2 = '"' :: (escStr s2 ++ '"' :: x2) by
    simp [serStr, List.append_assoc]] at h
  exact escStr_quote_unamb s1 s2 x1 x2 (by injection h)

lemma digit_char_toNat : ∀ m, m < 10 → (Char.ofNat (48 + m)).toNat = 48 + m := by decide

lemma digit_char_isDigit : ∀ m, m < 10 → isDigitCh (Char.ofNat (48 + m)) = true := by decide

lemma serNat_digits (n : ℕ) : ∀ c ∈ serNat n, isDigitCh c = true := by
  induction n using Nat.strong_induction_on with
  | _ n ih =>
    rw [serNat]
    split_ifs with h
    · intro c hc
      simp only [List.mem_singleton] at hc
      subst hc
      exact digit_char_isDigit n h
    · intro c hc
      rcases List.mem_append.mp hc with hm | hm
      · exact ih (n / 10) (Nat.div_lt_self (by omega) (by omega)) c hm
      · simp only [List.mem_singleton] at hm
        subst hm
        exact digit_char_isDigit (n % 10) (Nat.mod_lt _ (by omega))

lemma serNat_ne_nil (n : ℕ) : serNat n ≠ [] := by
  rw [serNat]
  split_ifs with h
  · simp
  · simp

lemma readNat_aux (n : ℕ) : ∀ a : ℕ,
    (serNat n).foldl (fun a c => a * 10 + (c.toNat - 48)) a
      = a * 10 ^ (serNat n).length + n := by
  induction n using Nat.strong_induction_on with
  | _ n ih =>
    intro a
    rw [serNat]
    split_ifs with h
    · simp only [List.foldl_cons, List.foldl_nil, List.length_singleton]
      rw [digit_char_toNat n h]
      simp only [pow_one]
      omega
    · rw [List.foldl_append, ih (n / 10) (Nat.div_lt_self (by omega) (by omega)) a]
      simp only [List.foldl_cons, List.foldl_nil, List.length_append,
        List.length_singleton]
      rw [digit_char_toNat (n % 10) (Nat.mod_lt _ (by omega))]
      calc (a * 10 ^ (serNat (n / 10)).length + n / 10) * 10 + (48 + n % 10 - 48)
          = a * (10 ^ (serNat (n / 10)).length * 10) + (n / 10 * 10 + (48 + n % 10 - 48)) := by
            ring
        _ = a * 10 ^ ((serNat (n / 10)).length + 1) + n := by
            rw [pow_succ]
            congr 1
            omega

lemma readNat_serNat (n : ℕ) : readNat (serNat n) = n := by
  rw [readNat, readNat_aux n 0]
  simp

lemma serNat_inj (a b : ℕ) (h : serNat a = serNat b) : a = b := by
  have := congrArg readNat h
  rwa [readNat_serNat, readNat_serNat] at this

lemma digits_run_unamb : ∀ (l1 l2 : List Char) (d1 d2 : Char) (r1 r2 : List Char),
    (∀ c ∈ l1, isDigitCh c = true) → (∀ c ∈ l2, isDigitCh c = true) →
    isDigitCh d1 = false → isDigitCh d2 = false →
    l1 ++ d1 :: r1 = l2 ++ d2 :: r2 → l1 = l2 ∧ d1 :: r1 = d2 :: r2 := by
  intro l1
  induction l1 with
  | nil =>
    intro l2 d1 d2 r1 r2 _ hl2 hd1 _ h
    cases l2 with
    | nil => exact ⟨rfl, by simpa using h⟩
    | cons c l2' =>
      exfalso
      simp only [List.nil_append, List.cons_append, List.cons.injEq] at h
      have := hl2 c (by simp)
      rw [← h.1] at this
      rw [this] at hd1
      simp [this] at hd1
  | cons c l1' ih =>
    intro l2 d1 d2 r1 r2 hl1 hl2 hd1 hd2 h
    cases l2 with
    | nil =>
      exfalso
      simp only [List.nil_append, List.cons_append, List.cons.injEq] at h
      have := hl1 c (by simp)
      rw [h.1] at this
      rw [this] at hd2
      simp [this] at hd2
    | cons c2 l2' =>
      simp only [List.cons_append, List.cons.injEq] at h
      obtain ⟨hc, ht⟩ := h
      obtain ⟨he, hr⟩ := ih l2' d1 d2 r1 r2 (fun x hx => hl1 x (by simp [hx]))
        (fun x hx => hl2 x (by simp [hx])) hd1 hd2 ht
      exact ⟨by rw [hc, he], hr⟩

lemma serNat_cons (n : ℕ) : ∃ c t, serNat n = c :: t ∧ isDigitCh c = true := by
  cases h : serNat n with
  | nil => exact absurd h (serNat_ne_nil n)
  | cons c t =>
    exact ⟨c, t, rfl, serNat_digits n c (by rw [h]; simp)⟩

lemma serNat_unamb (a b : ℕ) (d1 d2 : Char) (r1 r2 : List Char)
    (hd1 : isDigitCh d1 = false) (hd2 : isDigitCh d2 = false)
    (h : serNat a ++ d1 :: r1 = serNat b ++ d2 :: r2) :
    a = b ∧ d1 :: r1 = d2 :: r2 := by
  obtain ⟨hl, hr⟩ := digits_run_unamb (serNat a) (serNat b) d1 d2 r1 r2
    (serNat_digits a) (serNat_digits b) hd1 hd2 h
  exact ⟨serNat_inj a b hl, hr⟩

lemma serInt_unamb (i j : Int) (d1 d2 : Char) (r1 r2 : List Char)
    (hd1 : isDigitCh d1 = false) (hd2 : isDigitCh d2 = false)
    (h : serInt i ++ d1 :: r1 = serInt j ++ d2 :: r2) :
    i = j ∧ d1 :: r1 = d2 :: r2 := by
  rw [serInt, serInt] at h
  split_ifs at h with hi hj hj
  · simp only [List.cons_append, List.cons.injEq] at h
    obtain ⟨ha, hr⟩ := serNat_unamb i.natAbs j.natAbs d1 d2 r1 r2 hd1 hd2 h.2
    exact ⟨by omega, hr⟩
  · exfalso
    obtain ⟨c, t, hc, hdc⟩ := serNat_cons j.natAbs
    rw [hc] at h
    simp only [List.cons_append, List.cons.injEq] at h
    rw [← h.1] at hdc
    exact absurd hdc (by decide)
  · exfalso
    obtain ⟨c, t, hc, hdc⟩ := serNat_cons i.natAbs
    rw [hc] at h
    simp only [List.cons_append, List.cons.injEq] at h
    rw [h.1] at hdc
    exact absurd hdc (by decide)
  · obtain ⟨ha, hr⟩ := serNat_unamb i.natAbs j.natAbs d1 d2 r1 r2 hd1 hd2 h
    exact ⟨by omega, hr⟩

lemma serJVal_unamb (v1 v2 : JVal) (d1 d2 : Char) (r1 r2 : List Char)
    (hd1 : isDigitCh d1 = false) (hd2 : isDigitCh d2 = false)
    (h : serJVal v1 ++ d1 :: r1 = serJVal v2 ++ d2 :: r2) :
    v1 = v2 ∧ d1 :: r1 = d2 :: r2 := by
  cases v1 with
  | s s1 =>
    cases v2 with
    | s s2 =>
      obtain ⟨hs, hr⟩ := serStr_unamb s1 s2 (d1 :: r1) (d2 :: r2) h
      exact ⟨by rw [hs], hr⟩
    | i j =>
      exfalso
      simp only [serJVal, serStr, serInt] at h
      split_ifs at h with hj
      · simp only [List.cons_append, List.cons.injEq] at h
        exact absurd h.1 (by decide)
      · obtain ⟨c, t, hc, hdc⟩ := serNat_cons j.natAbs
        rw [hc] at h
        simp only [List.cons_append, List.cons.injEq] at h
        rw [← h.1] at hdc
        exact absurd hdc (by decide)
  | i i =>
    cases v2 with
    | s s2 =>
      exfalso
      simp only [serJVal, serStr, serInt] at h
      split_ifs at h with hi
      · simp only [List.cons_append, List.cons.injEq] at h
        exact absurd h.1 (by decide)
      · obtain ⟨c, t, hc, hdc⟩ := serNat_cons i.natAbs
        rw [hc] at h
        simp only [List.cons_append, List.cons.injEq] at h
        rw [h.1] at hdc
        exact absurd hdc (by decide)
    | i j =>
      obtain ⟨hi, hr⟩ := serInt_unamb i j d1 d2 r1 r2 hd1 hd2 h
      exact ⟨by rw [hi], hr⟩

lemma serEntry_unamb (e1 e2 : List Char × JVal) (d1 d2 : Char) (r1 r2 : List Char)
    (hd1 : isDigitCh d1 = false) (hd2 : isDigitCh d2 = false)
    (h : serEntry e1 ++ d1 :: r1 = serEntry e2 ++ d2 :: r2) :
    e1 = e2 ∧ d1 :: r1 = d2 :: r2 := by
  simp only [serEntry, List.append_assoc] at h
  obtain ⟨hk, hr⟩ := serStr_unamb e1.1 e2.1 _ _ h
  simp only [List.cons_append, List.cons.injEq, true_and] at hr
  obtain ⟨hv, hr2⟩ := serJVal_unamb e1.2 e2.2 d1 d2 r1 r2 hd1 hd2 hr
  exact ⟨Prod.ext hk hv, hr2⟩

lemma serItems_unamb : ∀ (l1 l2 : List (List Char × JVal)) (r1 r2 : List Char),
    serItems l1 ++ '\x7d' :: r1 = serItems l2 ++ '\x7d' :: r2 →
    l1 = l2 ∧ r1 = r2 := by
  intro l1
  induction l1 with
  | nil =>
    intro l2 r1 r2 h
    cases l2 with
    | nil =>
      simp only [serItems, List.nil_append, List.cons.injEq, true_and] at h
      exact ⟨rfl, h⟩
    | cons e2 es2 =>
      exfalso
      cases es2 with
      | nil =>
        simp only [serItems, serEntry, serStr, List.nil_append, List.cons_append,
          List.append_assoc, List.cons.injEq] at h
        exact absurd h.1 (by decide)
      | cons f2 fs2 =>
        simp only [serItems, serEntry, serStr, List.nil_append, List.cons_append,
          List.append_assoc, List.cons.injEq] at h
        exact absurd h.1 (by decide)
  | cons e1 es1 ih =>
    intro l2 r1 r2 h
    cases l2 with
    | nil =>
      exfalso
      cases es1 with
      | nil =>
        simp only [serItems, serEntry, serStr, List.nil_append, List.cons_append,
          List.append_assoc, List.cons.injEq] at h
        exact absurd h.1 (by decide)
      | cons f1 fs1 =>
        simp only [serItems, serEntry, serStr, List.nil_append, List.cons_append,
          List.append_assoc, List.cons.injEq] at h
        exact absurd h.1 (by decide)
    | cons e2 es2 =>
      cases es1 with
      | nil =>
        cases es2 with
        | nil =>
          simp only [serItems] at h
          obtain ⟨he, hr⟩ := serEntry_unamb e1 e2 '\x7d' '\x7d' r1 r2
            (by decide) (by decide) h
          simp only [List.cons.injEq, true_and] at hr
          exact ⟨by rw [he], hr⟩
        | cons f2 fs2 =>
          exfalso
          simp only [serItems, List.append_assoc] at h
          obtain ⟨_, hr⟩ := serEntry_unamb e1 e2 '\x7d' ',' r1
            (serItems (f2 :: fs2) ++ '\x7d' :: r2) (by decide) (by decide)
            (by simpa using h)
          simp only [List.cons.injEq] at hr
          exact absurd hr.1 (by decide)
      | cons f1 fs1 =>
        cases es2 with
        | nil =>
          exfalso
          simp only [serItems, List.append_assoc] at h
          obtain ⟨_, hr⟩ := serEntry_unamb e1 e2 ',' '\x7d'
            (serItems (f1 :: fs1) ++ '\x7d' :: r1) r2 (by decide) (by decide)
            (by simpa using h)
          simp only [List.cons.injEq] at hr
          exact absurd hr.1 (by decide)
        | cons f2 fs2 =>
          simp only [serItems, List.append_assoc] at h
          obtain ⟨he, hr⟩ := serEntry_unamb e1 e2 ',' ','
            (serItems (f1 :: fs1) ++ '\x7d' :: r1)
            (serItems (f2 :: fs2) ++ '\x7d' :: r2) (by decide) (by decide)
            (by simpa using h)
          simp only [List.cons.injEq, true_and] at hr
          obtain ⟨hes, hr2⟩ := ih (f2 :: fs2) r1 r2 hr
          exact ⟨by rw [he, hes], hr2⟩

lemma serObj_unamb (l1 l2 : List (List Char × JVal)) (x1 x2 : List Char)
    (h : serObj l1 ++ x1 = serObj l2 ++ x2) : l1 = l2 ∧ x1 = x2 := by
  simp only [serObj, List.cons_append, List.append_assoc, List.cons.injEq,
    true_and] at h
  exact serItems_unamb l1 l2 x1 x2 (by simpa using h)

lemma serStrItems_unamb : ∀ (l1 l2 : List (List Char)) (r1 r2 : List Char),
    serStrItems l1 ++ ']' :: r1 = serStrItems l2 ++ ']' :: r2 →
    l1 = l2 ∧ r1 = r2 := by
  intro l1
  induction l1 with
  | nil =>
    intro l2 r1 r2 h
    cases l2 with
    | nil =>
      simp only [serStrItems, List.nil_append, List.cons.injEq, true_and] at h
      exact ⟨rfl, h⟩
    | cons s2 ss2 =>
      exfalso
      cases ss2 with
      | nil =>
        simp only [serStrItems, serStr, List.nil_append, List.cons_append,
          List.cons.injEq] at h
        exact absurd h.1 (by decide)
      | cons t2 ts2 =>
        simp only [serStrItems, serStr, List.nil_append, List.cons_append,
          List.append_assoc, List.cons.injEq] at h
        exact absurd h.1 (by decide)
  | cons s1 ss1 ih =>
    intro l2 r1 r2 h
    cases l2 with
    | nil =>
      exfalso
      cases ss1 with
      | nil =>
        simp only [serStrItems, serStr, List.nil_append, List.cons_append,
          List.cons.injEq] at h
        exact absurd h.1 (by decide)
      | cons t1 ts1 =>
        simp only [serStrItems, serStr, List.nil_append, List.cons_append,
          List.append_assoc, List.cons.injEq] at h
        exact absurd h.1 (by decide)
    | cons s2 ss2 =>
      cases ss1 with
      | nil =>
        cases ss2 with
        | nil =>
          simp only [serStrItems] at h
          obtain ⟨hs, hr⟩ := serStr_unamb s1 s2 (']' :: r1) (']' :: r2) h
          simp only [List.cons.injEq, true_and] at hr
          exact ⟨by rw [hs], hr⟩
        | cons t2 ts2 =>
          exfalso
          simp only [serStrItems, List.append_assoc] at h
          obtain ⟨_, hr⟩ := serStr_unamb s1 s2 (']' :: r1)
            (',' :: (serStrItems (t2 :: ts2) ++ ']' :: r2)) (by simpa using h)
          simp only [List.cons.injEq] at hr
          exact absurd hr.1 (by decide)
      | cons t1 ts1 =>
        cases ss2 with
        | nil =>
          exfalso
          simp only [serStrItems, List.append_assoc] at h
          obtain ⟨_, hr⟩ := serStr_unamb s1 s2
            (',' :: (serStrItems (t1 :: ts1) ++ ']' :: r1)) (']' :: r2)
            (by simpa using h)
          simp only [List.cons.injEq] at hr
          exact absurd hr.1 (by decide)
        | cons t2 ts2 =>
          simp only [serStrItems, List.append_assoc] at h
          obtain ⟨hs, hr⟩ := serStr_unamb s1 s2
            (',' :: (serStrItems (t1 :: ts1) ++ ']' :: r1))
            (',' :: (serStrItems (t2 :: ts2) ++ ']' :: r2)) (by simpa using h)
          simp only [List.cons.injEq, true_and] at hr
          obtain ⟨hss, hr2⟩ := ih (t2 :: ts2) r1 r2 hr
          exact ⟨by rw [hs, hss], hr2⟩

lemma serStrList_unamb (l1 l2 : List (List Char)) (x1 x2 : List Char)
    (h : serStrList l1 ++ x1 = serStrList l2 ++ x2) : l1 = l2 ∧ x1 = x2 := by
  simp only [serStrList, List.cons_append, List.append_assoc, List.cons.injEq,
    true_and] at h
  exact serStrItems_unamb l1 l2 x1 x2 (by simpa using h)

lemma canonBody_inj (b1 b2 : EventBody) (h : canonBody b1 = canonBody b2) :
    b1 = b2 := by
  cases b1 with
  | mk sv1 src1 hid1 hn1 hip1 t1 ty1 sub1 sev1 d1 ioc1 sc1 =>
  cases b2 with
  | mk sv2 src2 hid2 hn2 hip2 t2 ty2 sub2 sev2 d2 ioc2 sc2 =>
  simp only [canonBody, List.append_assoc] at h
  replace h := List.append_cancel_left h
  obtain ⟨hdata, h⟩ := serObj_unamb d1 d2 _ _ h
  replace h := List.append_cancel_left h
  obtain ⟨hhid, h⟩ := serStr_unamb hid1 hid2 _ _ h
  replace h := List.append_cancel_left h
  obtain ⟨hhip, h⟩ := serStr_unamb hip1 hip2 _ _ h
  replace h := List.append_cancel_left h
  obtain ⟨hhn, h⟩ := serStr_unamb hn1 hn2 _ _ h
  replace h := List.append_cancel_left h
  obtain ⟨hsv, h⟩ := serStr_unamb sv1 sv2 _ _ h
  replace h := List.append_cancel_left h
  simp only [List.cons_append, List.nil_append] at h
  obtain ⟨hsev, h⟩ := serInt_unamb sev1 sev2 ',' ',' _ _ (by decide) (by decide) h
  simp only [List.cons.injEq, true_and] at h
  obtain ⟨hioc, h⟩ := serStrList_unamb ioc1 ioc2 _ _ h
  simp only [List.cons.injEq, true_and] at h
  obtain ⟨hsc, h⟩ := serInt_unamb sc1 sc2 '\x7d' '\x7d' _ _ (by decide) (by decide) h
  simp only [List.cons.injEq, true_and] at h
  obtain ⟨hsrc, h⟩ := serStr_unamb src1 src2 _ _ h
  simp only [List.cons.injEq, true_and] at h
  obtain ⟨hsub, h⟩ := serStr_unamb sub1 sub2 _ _ h
  simp only [List.cons.injEq, true_and] at h
  obtain ⟨ht, h⟩ := serStr_unamb t1 t2 _ _ h
  simp only [List.cons.injEq, true_and] at h
  obtain ⟨hty, _⟩ := serStr_unamb ty1 ty2 _ _ h
  simp only [EventBody.mk.injEq]
  exact ⟨hsv, hsrc, hhid, hhn, hhip, ht, hty, hsub, hsev, hdata, hioc, hsc⟩

/-- C1: signing an Event - HMAC over the canonical JSON of the body with
the `hmac` key removed, keys sorted, separators `(',',':')` - then
re-canonicalizing the signed event with `hmac` removed and recomputing
the MAC reproduces the identical signature, and `verify_event` accepts
the signed event; corrupting the value of any field other than `hmac`
after signing changes the canonical body (canonical serialization is
injective), so for an injective MAC `verify_event` rejects. -/
theorem C1_hmac_roundtrip (hmacFn : List Char → List Char) (e e2 : WireEvent)
    (hinj : Function.Injective hmacFn)
    (hkeep : e2.hmac = signEvt hmacFn e) (hne : e2.body ≠ e.body) :
    verify_event hmacFn { body := e.body, hmac := signEvt hmacFn e } = true ∧
    signEvt hmacFn { body := e.body, hmac := signEvt hmacFn e }
      = signEvt hmacFn e ∧
    verify_event hmacFn e2 = false := by
  refine ⟨by simp [verify_event, signEvt], rfl, ?_⟩
  have hmain : ¬ (e2.hmac = signEvt hmacFn e2) := by
    intro hq
    apply hne
    have h1 : hmacFn (canonBody e2.body) = hmacFn (canonBody e.body) :=
      hq.symm.trans hkeep
    exact canonBody_inj _ _ (hinj h1)
  simp only [verify_event, beq_eq_false_iff_ne, ne_eq]
  exact hmain

theorem C1_hmac_roundtrip_witness :
    verify_event id { body := c1EvA.body, hmac := signEvt id c1EvA } = true ∧
    signEvt id { body := c1EvA.body, hmac := signEvt id c1EvA }
      = signEvt id c1EvA ∧
    verify_event id c1EvB = false :=
  C1_hmac_roundtrip id c1EvA c1EvB Function.injective_id rfl (by decide)


end RTM
